import Mathlib

/-!
# Atom-type occupancy grids: `NNGridder` (src/src/gninagrid/nngridder.cpp)

A shallow embedding of the gridding core and the properties established about it.

Conventions of the embedding.

* The floating point types of the source (`float`, `double`, `fl`) are embedded as the
  elements of a linearly ordered field `K` with a floor function, with exact arithmetic:
  rounding is not modelled.  Every statement below is a statement about this exact
  arithmetic reading of the code.
* What the translation unit takes from elsewhere (`sqrt`, `exp`, `M_E` of `<cmath>` and the
  radius table `xs_radius`) is a parameter, collected in `Extern`.
* Literals with an integral value (`1.0`, `6.0`, ...) are written `1`, `6`, ...
* A conversion or an array access whose behaviour C++ leaves undefined makes the embedded
  function return `none`.
* An output stream is the list of the items written to it: the values written by
  `out.write` for the binary stream, and the operands of `out << ...` for a text stream.
  The bytes of a `float` and the formatting of a number as text are not modelled.
-/

namespace Gnina

variable {K : Type}

/-! ## Data model -/

/-- What `nngridder.cpp` uses without defining it: `sqrt`, `exp` and `M_E` from `<cmath>`,
and the per-type radius table `xs_radius` (indexed by the atom type `smt`). -/
structure Extern (K : Type) where
  sqrt : K → K
  exp : K → K
  M_E : K
  xs_radius : Nat → K

/-- The three coordinates of a `vec`. -/
structure vec (K : Type) where
  x : K
  y : K
  z : K

/-- The componentwise difference `a - b` of two `vec`. -/
def vec.sub [Sub K] (a b : vec K) : vec K :=
  ⟨a.x - b.x, a.y - b.y, a.z - b.z⟩

/-- The squared euclidean norm `norm_sqr()` of a `vec`. -/
def vec.norm_sqr [Add K] [Mul K] (v : vec K) : K :=
  v.x * v.x + v.y * v.y + v.z * v.z

/-- The part of an `atom` the gridder reads: its type `sm` and its position `coords`. -/
structure atom (K : Type) where
  sm : Nat
  coords : vec K

/-- One axis of the grid (`grid_dim`): bounds `begin`, `end` and the number `n` of intervals. -/
structure grid_dim (K : Type) where
  begin : K
  end_ : K
  n : Nat

/-- A `boost::multi_array<float, 3>`.  All arrays of the program are cubic
(`extents[n][n][n]`) or default constructed (empty): `extent` is the common length of the
three axes and `data i j k` is the element `[i][j][k]`, meaningful for indices below
`extent`. -/
structure multi_array (K : Type) where
  extent : Nat
  data : Nat → Nat → Nat → K

/-- The members of an `NNGridder` object that the gridding code reads and writes.  The
member `mols`, the external source of structures, is not part of the embedded state. -/
structure NNGridder (K : Type) where
  resolution : K
  radiusmultiple : K
  binary : Bool
  dims0 : grid_dim K
  dims1 : grid_dim K
  dims2 : grid_dim K
  rmap : List Int
  lmap : List Int
  receptorGrids : List (multi_array K)
  ligandGrids : List (multi_array K)

/-! ## `NNGridder::calcPoint` -/

section Kernel

variable [LinearOrderedField K]

/-- The value returned on the gaussian branch of `calcPoint` (`dist <= ar`). -/
def calcPoint_gaussian (E : Extern K) (ar dist : K) : K :=
  let h := 0.5 * ar
  let ex := -dist * dist / (2 * h * h)
  E.exp ex

/-- The value returned on the quadratic branch of `calcPoint` (`ar < dist < 1.5 * ar`).
The source computes `eval` as `1.0/M_E*M_E`. -/
def calcPoint_quadratic (E : Extern K) (ar dist : K) : K :=
  let h := 0.5 * ar
  let eval := 1 / E.M_E * E.M_E
  dist * dist * eval / (h * h) - 6 * eval * dist / h + 9 * eval

/-- The function `NNGridder::calcPoint`: the occupancy of atom `a` at the point `pt`. -/
def NNGridder.calcPoint (E : Extern K) (g : NNGridder K) (a : atom K) (pt : vec K) : K :=
  let rsq := (pt.sub a.coords).norm_sqr
  let ar := E.xs_radius a.sm
  if g.binary then
    if rsq < ar * ar then 1 else 0
  else
    let dist := E.sqrt rsq
    if dist ≥ ar * 1.5 then 0
    else if dist ≤ ar then calcPoint_gaussian E ar dist
    else calcPoint_quadratic E ar dist

end Kernel

/-! ## `NNGridder::getrange` -/

/-- Conversion of an integral `double` to `unsigned` (32 bits).  C++ defines it only when the
value is representable; otherwise the behaviour is undefined (`none`). -/
def toUnsigned (z : Int) : Option Nat :=
  if 0 ≤ z ∧ z < 2 ^ 32 then some z.toNat else none

section Range

variable [LinearOrderedField K] [FloorRing K]

/-- The function `NNGridder::getrange`: the pair (`first`, `second`) of grid indices
computed for the interval from `c - r` to `c + r` on the axis `dim`.  The member `dim.n`
(a `size_t`) is narrowed to `unsigned`. -/
def NNGridder.getrange (g : NNGridder K) (dim : grid_dim K) (c r : K) : Option (Nat × Nat) :=
  let low := c - r - dim.begin
  (if low > 0 then toUnsigned ⌊low / g.resolution⌋ else some 0).bind fun first =>
  let high := c + r - dim.begin
  (if high ≥ dim.end_ then some (dim.n % 2 ^ 32)
    else toUnsigned ⌈high / g.resolution⌉).bind fun second =>
  some (first, second)

end Range

/-! ## `NNGridder::setAtom` -/

/-- The loop `for (unsigned i = lo; ...; i++) body`, run for `cnt` iterations starting at
the index `lo`, threading the state through the iterations; an iteration whose behaviour is
undefined makes the whole loop undefined. -/
def forLoop {σ : Type} (body : Nat → σ → Option σ) : Nat → Nat → σ → Option σ
  | 0, _, s => some s
  | cnt + 1, lo, s => (body lo s).bind (forLoop body cnt (lo + 1))

/-- The statement `grid[i][j][k] += v`; an index outside the extents is out of bounds. -/
def multi_array.addAt [Add K] (grid : multi_array K) (i j k : Nat) (v : K) :
    Option (multi_array K) :=
  if i < grid.extent ∧ j < grid.extent ∧ k < grid.extent then
    some { grid with
      data := fun a b c => if a = i ∧ b = j ∧ c = k then grid.data a b c + v
        else grid.data a b c }
  else none

section Accumulate

variable [LinearOrderedField K] [FloorRing K]

/-- The function `NNGridder::setAtom`: add the occupancy of atom `a` to the cells of `grid`
in the index box given by `getrange` on the three axes (`i` from `first` while
`i < second`). -/
def NNGridder.setAtom (E : Extern K) (g : NNGridder K) (a : atom K) (grid : multi_array K) :
    Option (multi_array K) :=
  let r := E.xs_radius a.sm * g.radiusmultiple
  (g.getrange g.dims0 a.coords.x r).bind fun r0 =>
  (g.getrange g.dims1 a.coords.y r).bind fun r1 =>
  (g.getrange g.dims2 a.coords.z r).bind fun r2 =>
  forLoop (fun i grid =>
    forLoop (fun j grid =>
      forLoop (fun k grid =>
        let x := g.dims0.begin + i * g.resolution
        let y := g.dims1.begin + j * g.resolution
        let z := g.dims2.begin + k * g.resolution
        grid.addAt i j k (g.calcPoint E a ⟨x, y, z⟩))
        (r2.2 - r2.1) r2.1 grid)
      (r1.2 - r1.1) r1.1 grid)
    (r0.2 - r0.1) r0.1 grid

end Accumulate

/-! ## Construction and `NNGridder::readMolecule` -/

/-- The options the constructor reads from `cmdoptions`. -/
structure cmdoptions (K : Type) where
  x : K
  y : K
  z : K
  dim : K
  res : K
  binary : Bool

/-- Conversion of an integral `double` to `int` (32 bits), undefined when the value is not
representable. -/
def toInt (z : Int) : Option Int :=
  if -(2 ^ 31) ≤ z ∧ z < 2 ^ 31 then some z else none

/-- The call `fill_n(grid.data(), grid.num_elements(), 0.0)`: every element of the array
(every index within the extents) becomes 0. -/
def multi_array.fill_zero [Zero K] (grid : multi_array K) : multi_array K :=
  { grid with
    data := fun i j k =>
      if i < grid.extent ∧ j < grid.extent ∧ k < grid.extent then 0 else grid.data i j k }

/-- The allocation of channel `i` in the constructor: `grids.resize(i + 1)` when
`grids.size() <= i` (the new arrays are default constructed, hence empty), then
`grids[i].resize(extents[n][n][n])` and zero fill. -/
def allocGrid [Zero K] (grids : List (multi_array K)) (i n : Nat) : List (multi_array K) :=
  let grids :=
    if grids.length ≤ i then
      grids ++ List.replicate (i + 1 - grids.length) ⟨0, fun _ _ _ => 0⟩
    else grids
  grids.set i (multi_array.fill_zero ⟨n, fun _ _ _ => 0⟩)

section Session

variable [LinearOrderedField K] [FloorRing K]

/-- The function `round` of `<cmath>`: to the nearest integer, halves away from zero. -/
def cround (x : K) : Int :=
  if 0 ≤ x then ⌊x + 1 / 2⌋ else ⌈x - 1 / 2⌉

/-- The grid set up by the constructor from the options: the three axes and the number
`n = numpts + 1` of points per axis (`numpts` is an `int`, `dims[i].n` a `size_t`, `n` an
`unsigned`). -/
def setupGrid (opt : cmdoptions K) : Option ((grid_dim K × grid_dim K × grid_dim K) × Nat) :=
  (toInt (cround (opt.dim / opt.res))).bind fun numpts =>
  let half := opt.dim / 2
  let dn := (numpts % 2 ^ 64).toNat
  (toInt (numpts + 1)).bind fun n1 =>
  some ((⟨opt.x - half, opt.x + half, dn⟩, ⟨opt.y - half, opt.y + half, dn⟩,
    ⟨opt.z - half, opt.z + half, dn⟩), (n1 % 2 ^ 32).toNat)

/-- The body shared by the two atom loops (constructor and `readMolecule`):
`int pos = map[a.sm]; if (pos >= 0) setAtom(a, grids[pos]);`.  An index outside `map` or
outside `grids` is out of bounds. -/
def NNGridder.setAtomAt (E : Extern K) (g : NNGridder K) (map : List Int)
    (grids : List (multi_array K)) (a : atom K) : Option (List (multi_array K)) :=
  match map[a.sm]? with
  | none => none
  | some pos =>
    if pos ≥ 0 then
      match grids[pos.toNat]? with
      | none => none
      | some grid => (g.setAtom E a grid).map fun grid' => grids.set pos.toNat grid'
    else some grids

/-- The loop over the atoms, `for (unsigned i = 0, n = atoms.size(); i < n; i++)`, with the
body `setAtomAt`. -/
def NNGridder.setAtoms (E : Extern K) (g : NNGridder K) (map : List Int) :
    List (atom K) → List (multi_array K) → Option (List (multi_array K))
  | [], grids => some grids
  | a :: rest, grids => (g.setAtomAt E map grids a).bind (NNGridder.setAtoms E g map rest)

/-- The allocation loop of the constructor over the atom types `at < NumTypes`, on the
pair (`receptorGrids`, `ligandGrids`). -/
def allocLoop (rmap lmap : List Int) (n : Nat) (at_ : Nat)
    (grids : List (multi_array K) × List (multi_array K)) :
    Option (List (multi_array K) × List (multi_array K)) :=
  match rmap[at_]?, lmap[at_]? with
  | some r, some l =>
    let rg := if r ≥ 0 then allocGrid grids.1 r.toNat n else grids.1
    let lg := if l ≥ 0 then allocGrid grids.2 l.toNat n else grids.2
    some (rg, lg)
  | _, _ => none

/-- The constructor `NNGridder::NNGridder`.  `NumTypes` is `smina_atom_type::NumTypes` and
`fixed_atoms` the atoms `mols.getInitModel().get_fixed_atoms()` of the receptor, both
supplied from outside this translation unit. -/
def NNGridder.create (E : Extern K) (NumTypes : Nat) (opt : cmdoptions K)
    (recmap ligmap : List Int) (fixed_atoms : List (atom K)) : Option (NNGridder K) :=
  let radiusmultiple : K := if opt.binary then 1 else 1.5
  (setupGrid opt).bind fun geo =>
  (forLoop (allocLoop recmap ligmap geo.2) NumTypes 0 ([], [])).bind fun grids =>
  let g : NNGridder K :=
    { resolution := opt.res, radiusmultiple := radiusmultiple, binary := opt.binary,
      dims0 := geo.1.1, dims1 := geo.1.2.1, dims2 := geo.1.2.2,
      rmap := recmap, lmap := ligmap, receptorGrids := grids.1, ligandGrids := grids.2 }
  (g.setAtoms E recmap fixed_atoms grids.1).map fun rg => { g with receptorGrids := rg }

/-- The function `NNGridder::readMolecule`.  The argument `fetched` is the outcome of
`mols.readMoleculeIntoModel(m)`: `none` when it returns false, and otherwise the atoms
`m.get_movable_atoms()` of the structure read.  The result is the returned flag and the
state of the object after the call. -/
def NNGridder.readMolecule (E : Extern K) (g : NNGridder K) (fetched : Option (List (atom K))) :
    Option (Bool × NNGridder K) :=
  match fetched with
  | none => some (false, g)
  | some atoms =>
    let cleared := g.ligandGrids.map multi_array.fill_zero
    (g.setAtoms E g.lmap atoms cleared).map fun grids => (true, { g with ligandGrids := grids })

end Session

/-! ## Output: `outputMAPGrid`, `outputMAP`, `outputBIN` -/

/-- What is handed to a text stream by `out << ...`: a string, an `unsigned`, or a floating
point value.  The formatting of the numbers is not modelled. -/
inductive MapItem (K : Type) where
  | text (s : String)
  | count (n : Nat)
  | value (x : K)

/-- The read access `grid[i][j][k]`; an index outside the extents is out of bounds. -/
def multi_array.get (grid : multi_array K) (i j k : Nat) : Option K :=
  if i < grid.extent ∧ j < grid.extent ∧ k < grid.extent then some (grid.data i j k) else none

/-- The function `NNGridder::getIndexName`: the names of the atom types that `map` sends to
`index`, concatenated.  `NumTypes` and `smina_type_to_string` come from outside this
translation unit; `map[at] == index` compares an `int` with an `unsigned`. -/
def getIndexName (NumTypes : Nat) (smina_type_to_string : Nat → String) (map : List Int)
    (index : Nat) : Option String :=
  forLoop (fun at_ ret =>
    (map[at_]?).map fun m =>
      if (m % 2 ^ 32).toNat = index then ret ++ smina_type_to_string at_ else ret)
    NumTypes 0 ""

section Output

variable [LinearOrderedField K]

/-- The function `NNGridder::outputMAPGrid`: the items written to the stream `out`, the
header and then the samples of `grid` with `k` outermost and `i` innermost. -/
def NNGridder.outputMAPGrid (g : NNGridder K) (out : List (MapItem K)) (grid : multi_array K) :
    Option (List (MapItem K)) :=
  let max := (g.dims0.n + 1) % 2 ^ 32
  let out := out ++ [.text "GRID_PARAMETER_FILE\nGRID_DATA_FILE\nMACROMOLECULE\n"]
  let out := out ++ [.text "SPACING ", .value g.resolution, .text "\n"]
  let out := out ++ [.text "NELEMENTS ", .count ((max + 2 ^ 32 - 1) % 2 ^ 32), .text " ",
    .count ((max + 2 ^ 32 - 1) % 2 ^ 32), .text " ", .count ((max + 2 ^ 32 - 1) % 2 ^ 32),
    .text "\n"]
  let out := out ++ [.text "CENTER"]
  let out := out ++ [.text " ", .value ((g.dims0.end_ + g.dims0.begin) / 2)]
  let out := out ++ [.text " ", .value ((g.dims1.end_ + g.dims1.begin) / 2)]
  let out := out ++ [.text " ", .value ((g.dims2.end_ + g.dims2.begin) / 2)]
  let out := out ++ [.text "\n"]
  forLoop (fun k out =>
    forLoop (fun j out =>
      forLoop (fun i out => (grid.get i j k).map fun v => out ++ [.value v]) max 0 out)
      max 0 out)
    max 0 out

/-- The function `NNGridder::outputMAP`: the files written, in order, each with its name
and the items written to it; first the fixed-side arrays, then the variable-side ones. -/
def NNGridder.outputMAP (NumTypes : Nat) (smina_type_to_string : Nat → String)
    (g : NNGridder K) (base : String) : Option (List (String × List (MapItem K))) :=
  (forLoop (fun a files =>
      (getIndexName NumTypes smina_type_to_string g.rmap a).bind fun name =>
      (g.receptorGrids[a]?).bind fun grid =>
      (g.outputMAPGrid [] grid).map fun content =>
        files ++ [(base ++ "_" ++ name ++ ".map", content)])
    g.receptorGrids.length 0 []).bind fun files =>
  forLoop (fun a files =>
      (getIndexName NumTypes smina_type_to_string g.lmap a).bind fun name =>
      (g.ligandGrids[a]?).bind fun grid =>
      (g.outputMAPGrid [] grid).map fun content =>
        files ++ [(base ++ "_" ++ name ++ ".map", content)])
    g.ligandGrids.length 0 files

/-- The function `NNGridder::outputBIN`: the floating point values written to the stream
`out`, one per `out.write`. -/
def NNGridder.outputBIN (g : NNGridder K) (out : List K) : Option (List K) :=
  let n := (g.dims0.n + 1) % 2 ^ 32
  forLoop (fun i out =>
    forLoop (fun j out =>
      forLoop (fun k out =>
        (forLoop (fun a out =>
            (g.receptorGrids[a]?).bind fun grid =>
            (grid.get i j k).map fun v => out ++ [v])
          g.receptorGrids.length 0 out).bind fun out =>
        forLoop (fun a out =>
            (g.ligandGrids[a]?).bind fun grid =>
            (grid.get i j k).map fun v => out ++ [v])
          g.ligandGrids.length 0 out)
        n 0 out)
      n 0 out)
    n 0 out

end Output

/-! ## Auxiliary notions used to state the properties -/

/-- The blocks `f lo`, `f (lo + 1)`, ... (`cnt` of them) one after the other; undefined as
soon as one of them is. -/
def collect {α : Type} (f : Nat → Option (List α)) : Nat → Nat → Option (List α)
  | 0, _ => some []
  | cnt + 1, lo => (f lo).bind fun b => (collect f cnt (lo + 1)).map fun rest => b ++ rest

/-- The array `grid` with `w i j k` added to every element `[i][j][k]`. -/
def multi_array.addf [Add K] (grid : multi_array K) (w : Nat → Nat → Nat → K) :
    multi_array K :=
  { grid with data := fun i j k => grid.data i j k + w i j k }

/-- The zero array with `n` points per axis. -/
def multi_array.zeros [Zero K] (n : Nat) : multi_array K :=
  ⟨n, fun _ _ _ => 0⟩

/-- Two arrays hold the same data: the same extents, and the same element at every index
within the extents. -/
def multi_array.same (A B : multi_array K) : Prop :=
  A.extent = B.extent ∧
    ∀ i j k, i < A.extent → j < A.extent → k < A.extent → A.data i j k = B.data i j k

/-- Two collections of arrays hold the same data, channel by channel. -/
def sameArrays (Gs Hs : List (multi_array K)) : Prop :=
  Gs.length = Hs.length ∧
    ∀ (c : Nat) (A B : multi_array K), Gs[c]? = some A → Hs[c]? = some B → A.same B

/-- Two collections of arrays have the same number of arrays and the same extents, channel
by channel. -/
def sameShapes (Gs Hs : List (multi_array K)) : Prop :=
  Gs.length = Hs.length ∧
    ∀ (c : Nat) (A B : multi_array K), Gs[c]? = some A → Hs[c]? = some B →
      A.extent = B.extent

/-- The array of channel `c`, the fixed-side channels first and then the variable-side
ones. -/
def NNGridder.channel (g : NNGridder K) (c : Nat) : Option (multi_array K) :=
  if c < g.receptorGrids.length then g.receptorGrids[c]?
  else g.ligandGrids[c - g.receptorGrids.length]?

/-- The values read at the index triple `(i, j, k)` from the arrays of a collection, in the
order of the collection. -/
def readAll (grids : List (multi_array K)) (i j k : Nat) : Option (List K) :=
  collect (fun a => (grids[a]?).bind fun grid => (grid.get i j k).map fun v => [v])
    grids.length 0

/-- The values that `outputBIN` writes for the index triple `(i, j, k)`. -/
def NNGridder.binCell (g : NNGridder K) (i j k : Nat) : Option (List K) :=
  (readAll g.receptorGrids i j k).bind fun b1 =>
    (readAll g.ligandGrids i j k).map fun b2 => b1 ++ b2

/-- The world coordinates that `setAtom` computes for the grid indices `(i, j, k)`. -/
def NNGridder.gridPoint [LinearOrderedField K] (g : NNGridder K) (i j k : Nat) : vec K :=
  ⟨g.dims0.begin + i * g.resolution, g.dims1.begin + j * g.resolution,
    g.dims2.begin + k * g.resolution⟩

/-- Membership of the index triple `(i, j, k)` in the box that the three loops of `setAtom`
run over, for the index pairs `r0`, `r1`, `r2` of the three axes. -/
def inBox (r0 r1 r2 : Nat × Nat) (i j k : Nat) : Prop :=
  (r0.1 ≤ i ∧ i < r0.2) ∧ (r1.1 ≤ j ∧ j < r1.2) ∧ (r2.1 ≤ k ∧ k < r2.2)

instance (r0 r1 r2 : Nat × Nat) (i j k : Nat) : Decidable (inBox r0 r1 r2 i j k) := by
  unfold inBox
  infer_instance

/-! ## Properties of `calcPoint` -/

/-- C1, evaluated on the code: in smoothed mode, for an atom of radius 2 at the origin and
the point (2.5, 0, 0) (distance 2.5, between r and 1.5 r), `calcPoint` returns 1/4, whereas
the reference `exp(-2) * (d^2/h^2 - 6 d/h + 9)` with h = 1 is smaller than 1/4: the factor
`1.0/M_E*M_E` of the source is 1, not `exp(-2)`. -/
theorem calcPoint_quadratic_not_scaled (g : NNGridder ℝ) :
    NNGridder.calcPoint ⟨Real.sqrt, Real.exp, Real.exp 1, fun _ => 2⟩
        { g with binary := false } ⟨0, ⟨0, 0, 0⟩⟩ ⟨2.5, 0, 0⟩ = 1 / 4
      ∧ Real.exp (-2) * ((2.5 : ℝ) ^ 2 / 1 ^ 2 - 6 * 2.5 / 1 + 9) < 1 / 4 := by
  have hs : Real.sqrt (2.5 * 2.5) = 2.5 := Real.sqrt_mul_self (by norm_num)
  have he : (1 : ℝ) / Real.exp 1 * Real.exp 1 = 1 := by
    field_simp
  constructor
  · simp only [NNGridder.calcPoint, vec.sub, vec.norm_sqr, calcPoint_quadratic,
      calcPoint_gaussian, sub_zero, mul_zero, add_zero, hs, he]
    norm_num
  · have : Real.exp (-2) < 1 := Real.exp_lt_one_iff.mpr (by norm_num)
    nlinarith

/-- C2, evaluated on the code for the radius r = 2: at the splice point d = r the
expression of the quadratic branch has the value 1 and the slope -2, whereas the gaussian
branch has the value exp(-2) < 1 and the slope -2 exp(-2) there; the kernel of the source
jumps at d = r (same defect as C1: `1.0/M_E*M_E` is 1, not `exp(-2)`). -/
theorem calcPoint_splice_mismatch :
    calcPoint_quadratic ⟨Real.sqrt, Real.exp, Real.exp 1, fun _ => 2⟩ 2 2 = 1
      ∧ calcPoint_gaussian ⟨Real.sqrt, Real.exp, Real.exp 1, fun _ => 2⟩ 2 2 = Real.exp (-2)
      ∧ Real.exp (-2) < 1
      ∧ HasDerivAt (calcPoint_quadratic ⟨Real.sqrt, Real.exp, Real.exp 1, fun _ => 2⟩ 2)
          (-2) 2
      ∧ HasDerivAt (calcPoint_gaussian ⟨Real.sqrt, Real.exp, Real.exp 1, fun _ => 2⟩ 2)
          (-2 * Real.exp (-2)) 2
      ∧ -2 * Real.exp (-2) ≠ -2 := by
  have he : (1 : ℝ) / Real.exp 1 * Real.exp 1 = 1 := by
    field_simp
  have hlt : Real.exp (-2) < 1 := Real.exp_lt_one_iff.mpr (by norm_num)
  have hq : calcPoint_quadratic ⟨Real.sqrt, Real.exp, Real.exp 1, fun _ => 2⟩ 2
      = fun d : ℝ => d * d - 6 * d + 9 := by
    funext d
    simp only [calcPoint_quadratic, he]
    norm_num
  have hg : calcPoint_gaussian ⟨Real.sqrt, Real.exp, Real.exp 1, fun _ => 2⟩ 2
      = fun d : ℝ => Real.exp (-(d * d) / 2) := by
    funext d
    simp only [calcPoint_gaussian]
    norm_num
  refine ⟨?_, ?_, hlt, ?_, ?_, ?_⟩
  · rw [hq]; norm_num
  · rw [hg]; norm_num
  · rw [hq]
    have h1 : HasDerivAt (fun d : ℝ => d * d) (1 * 2 + 2 * 1) 2 :=
      (hasDerivAt_id (2 : ℝ)).mul (hasDerivAt_id (2 : ℝ))
    have h2 : HasDerivAt (fun d : ℝ => 6 * d) (6 * 1) 2 :=
      (hasDerivAt_id (2 : ℝ)).const_mul 6
    have h3 := (h1.sub h2).add_const 9
    convert h3 using 1
    norm_num
  · rw [hg]
    have h1 : HasDerivAt (fun d : ℝ => d * d) (1 * 2 + 2 * 1) 2 :=
      (hasDerivAt_id (2 : ℝ)).mul (hasDerivAt_id (2 : ℝ))
    have h2 : HasDerivAt (fun d : ℝ => -(d * d) / 2) (-(1 * 2 + 2 * 1) / 2) 2 :=
      h1.neg.div_const 2
    have h3 := h2.exp
    convert h3 using 1
    norm_num
    ring
  · intro h
    linarith

/-- C3: in binary mode `calcPoint` is the indicator of `rsq < ar * ar`, where `rsq` is the
squared distance from the point to the atom centre and `ar` the atom radius: it returns 1
below and 0 otherwise; in particular, at a point at distance exactly `ar` from the centre
(here the centre shifted by `ar` along x) it returns 0. -/
theorem calcPoint_binary [LinearOrderedField K] (E : Extern K) (g : NNGridder K)
    (a : atom K) (pt : vec K) :
    NNGridder.calcPoint E { g with binary := true } a pt
        = (if (pt.sub a.coords).norm_sqr < E.xs_radius a.sm * E.xs_radius a.sm then 1 else 0)
      ∧ NNGridder.calcPoint E { g with binary := true } a
          ⟨a.coords.x + E.xs_radius a.sm, a.coords.y, a.coords.z⟩ = 0 := by
  constructor
  · simp [NNGridder.calcPoint]
  · simp [NNGridder.calcPoint, vec.sub, vec.norm_sqr]

/-! ## The loops of `setAtom` -/

section Loops

variable [LinearOrderedField K]

theorem multi_array.addf_extent (grid : multi_array K) (w : Nat → Nat → Nat → K) :
    (grid.addf w).extent = grid.extent := rfl

theorem multi_array.addf_addf (grid : multi_array K) (w v : Nat → Nat → Nat → K) :
    (grid.addf w).addf v = grid.addf (fun i j k => w i j k + v i j k) := by
  simp only [multi_array.addf, add_assoc]

theorem multi_array.addf_zero (grid : multi_array K) :
    grid.addf (fun _ _ _ => 0) = grid := by
  simp only [multi_array.addf, add_zero]

/-- A loop whose iteration `i` is defined exactly when `ok i` holds, and then adds `w i`
to the array, is defined exactly when `ok` holds over the whole index range, and then adds
the sum of the `w i`. -/
theorem forLoop_addf (n : Nat) (body : Nat → multi_array K → Option (multi_array K))
    (ok : Nat → Prop) (w : Nat → Nat → Nat → Nat → K)
    (hbody : ∀ i grid grid', grid.extent = n →
      (body i grid = some grid' ↔ ok i ∧ grid' = grid.addf (w i))) :
    ∀ (cnt lo : Nat) (grid grid' : multi_array K), grid.extent = n →
      (forLoop body cnt lo grid = some grid' ↔
        (∀ i, lo ≤ i → i < lo + cnt → ok i) ∧
          grid' = grid.addf (fun a b c => ∑ i in Finset.range cnt, w (lo + i) a b c)) := by
  intro cnt
  induction cnt with
  | zero =>
    intro lo grid grid' _
    simp only [forLoop, Option.some.injEq, Finset.range_zero, Finset.sum_empty,
      multi_array.addf_zero, add_zero]
    constructor
    · intro h
      exact ⟨fun i h1 h2 => absurd h2 (by omega), h.symm⟩
    · intro h
      exact h.2.symm
  | succ cnt ih =>
    intro lo grid grid' hn
    simp only [forLoop, Option.bind_eq_some]
    constructor
    · rintro ⟨mid, hmid, hrest⟩
      obtain ⟨hok, rfl⟩ := (hbody lo grid mid hn).1 hmid
      obtain ⟨hoks, rfl⟩ := (ih (lo + 1) _ grid' (by rw [multi_array.addf_extent, hn])).1 hrest
      refine ⟨?_, ?_⟩
      · intro i h1 h2
        rcases Nat.eq_or_lt_of_le h1 with h | h
        · exact h ▸ hok
        · exact hoks i h (by omega)
      · rw [multi_array.addf_addf]
        congr 1
        funext a b c
        rw [Finset.sum_range_succ']
        simp only [add_zero, Nat.add_assoc, Nat.add_comm 1]
        rw [add_comm]
    · rintro ⟨hoks, rfl⟩
      refine ⟨grid.addf (w lo), (hbody lo grid _ hn).2 ⟨hoks lo le_rfl (by omega), rfl⟩, ?_⟩
      refine (ih (lo + 1) _ _ (by rw [multi_array.addf_extent, hn])).2 ⟨?_, ?_⟩
      · intro i h1 h2
        exact hoks i (by omega) (by omega)
      · rw [multi_array.addf_addf]
        congr 1
        funext a b c
        rw [Finset.sum_range_succ']
        simp only [add_zero, Nat.add_assoc, Nat.add_comm 1]
        rw [add_comm]

/-- A sum over an index range of terms that vanish except at the index `a`. -/
theorem sum_range_single (f : Nat → K) (lo cnt a : Nat) :
    (∑ i in Finset.range cnt, if a = lo + i then f (lo + i) else 0)
      = if lo ≤ a ∧ a < lo + cnt then f a else 0 := by
  induction cnt with
  | zero =>
    have : ¬ (lo ≤ a ∧ a < lo) := by omega
    simp [this]
  | succ cnt ih =>
    rw [Finset.sum_range_succ, ih]
    by_cases h1 : a = lo + cnt
    · subst h1
      have h2 : ¬ (lo ≤ lo + cnt ∧ lo + cnt < lo + cnt) := by omega
      have h3 : lo ≤ lo + cnt ∧ lo + cnt < lo + (cnt + 1) := by omega
      simp [h2, h3]
    · by_cases h2 : lo ≤ a ∧ a < lo + cnt
      · have h3 : lo ≤ a ∧ a < lo + (cnt + 1) := by omega
        simp [h1, h2, h3]
      · have h3 : ¬ (lo ≤ a ∧ a < lo + (cnt + 1)) := by omega
        simp [h1, h2, h3]

/-- A sum over an index range of a value that is counted at the index `c` only. -/
theorem sum_range_ite (P : Prop) [Decidable P] (x : K) (lo cnt c : Nat) :
    (∑ t in Finset.range cnt, if P ∧ c = lo + t then x else 0)
      = if P ∧ (lo ≤ c ∧ c < lo + cnt) then x else 0 := by
  by_cases hP : P
  · have h := sum_range_single (fun _ => x) lo cnt c
    simpa [hP] using h
  · simp [hP]

theorem multi_array.addAt_iff (grid grid' : multi_array K) (v : Nat → Nat → Nat → K)
    (i j k : Nat) :
    grid.addAt i j k (v i j k) = some grid' ↔
      (i < grid.extent ∧ j < grid.extent ∧ k < grid.extent) ∧
        grid' = grid.addf (fun a b c => if (a = i ∧ b = j) ∧ c = k then v a b c else 0) := by
  have hf : (fun a b c => if a = i ∧ b = j ∧ c = k then grid.data a b c + v i j k
        else grid.data a b c)
      = fun a b c => grid.data a b c + (if (a = i ∧ b = j) ∧ c = k then v a b c else 0) := by
    funext a b c
    by_cases h : a = i ∧ b = j ∧ c = k
    · obtain ⟨rfl, rfl, rfl⟩ := h
      simp
    · have h2 : ¬ ((a = i ∧ b = j) ∧ c = k) := fun h3 => h ⟨h3.1.1, h3.1.2, h3.2⟩
      simp [h, h2]
  unfold multi_array.addAt multi_array.addf
  rw [hf]
  by_cases h : i < grid.extent ∧ j < grid.extent ∧ k < grid.extent
  · simp only [h, and_self, if_true, Option.some.injEq, true_and]
    exact eq_comm
  · simp [h]

/-- The innermost loop of `setAtom` (over `k`, for fixed `i` and `j`). -/
theorem forLoop_k (v : Nat → Nat → Nat → K) (i j cnt lo : Nat) (grid grid' : multi_array K) :
    forLoop (fun k grid => grid.addAt i j k (v i j k)) cnt lo grid = some grid' ↔
      (∀ k, lo ≤ k → k < lo + cnt →
          i < grid.extent ∧ j < grid.extent ∧ k < grid.extent) ∧
        grid' = grid.addf (fun a b c =>
          if (a = i ∧ b = j) ∧ (lo ≤ c ∧ c < lo + cnt) then v a b c else 0) := by
  rw [forLoop_addf grid.extent (fun k grid => grid.addAt i j k (v i j k))
    (fun k => i < grid.extent ∧ j < grid.extent ∧ k < grid.extent)
    (fun k a b c => if (a = i ∧ b = j) ∧ c = k then v a b c else 0)
    (fun k g1 g2 h => by rw [multi_array.addAt_iff, h]) cnt lo grid grid' rfl]
  have hs : (fun a b c => ∑ t in Finset.range cnt,
        if (a = i ∧ b = j) ∧ c = lo + t then v a b c else 0)
      = fun a b c => if (a = i ∧ b = j) ∧ (lo ≤ c ∧ c < lo + cnt) then v a b c else 0 := by
    funext a b c
    exact sum_range_ite _ _ lo cnt c
  rw [hs]

/-- The middle loop of `setAtom` (over `j`, for fixed `i`). -/
theorem forLoop_j (v : Nat → Nat → Nat → K) (i cnt1 lo1 cnt2 lo2 : Nat)
    (grid grid' : multi_array K) :
    forLoop (fun j grid => forLoop (fun k grid => grid.addAt i j k (v i j k)) cnt2 lo2 grid)
        cnt1 lo1 grid = some grid' ↔
      (∀ j, lo1 ≤ j → j < lo1 + cnt1 → ∀ k, lo2 ≤ k → k < lo2 + cnt2 →
          i < grid.extent ∧ j < grid.extent ∧ k < grid.extent) ∧
        grid' = grid.addf (fun a b c =>
          if (a = i ∧ (lo2 ≤ c ∧ c < lo2 + cnt2)) ∧ (lo1 ≤ b ∧ b < lo1 + cnt1)
            then v a b c else 0) := by
  rw [forLoop_addf grid.extent
    (fun j grid => forLoop (fun k grid => grid.addAt i j k (v i j k)) cnt2 lo2 grid)
    (fun j => ∀ k, lo2 ≤ k → k < lo2 + cnt2 →
      i < grid.extent ∧ j < grid.extent ∧ k < grid.extent)
    (fun j a b c => if (a = i ∧ (lo2 ≤ c ∧ c < lo2 + cnt2)) ∧ b = j then v a b c else 0)
    (fun j g1 g2 h => by
      rw [forLoop_k, h]
      have hw : (fun a b c => if (a = i ∧ b = j) ∧ (lo2 ≤ c ∧ c < lo2 + cnt2)
            then v a b c else 0)
          = fun a b c => if (a = i ∧ (lo2 ≤ c ∧ c < lo2 + cnt2)) ∧ b = j
            then v a b c else 0 := by
        funext a b c
        exact if_congr (by tauto) rfl rfl
      rw [hw]) cnt1 lo1 grid grid' rfl]
  have hs : (fun a b c => ∑ t in Finset.range cnt1,
        if (a = i ∧ (lo2 ≤ c ∧ c < lo2 + cnt2)) ∧ b = lo1 + t then v a b c else 0)
      = fun a b c => if (a = i ∧ (lo2 ≤ c ∧ c < lo2 + cnt2)) ∧ (lo1 ≤ b ∧ b < lo1 + cnt1)
          then v a b c else 0 := by
    funext a b c
    exact sum_range_ite _ _ lo1 cnt1 b
  rw [hs]

/-- The three nested loops of `setAtom` over the index box given by `r0`, `r1`, `r2`: they
are defined exactly when every index triple of the box is within the extents of the array,
and then add `v i j k` to every element `[i][j][k]` of the box and leave the others. -/
theorem boxLoop_iff (v : Nat → Nat → Nat → K) (r0 r1 r2 : Nat × Nat)
    (grid grid' : multi_array K) :
    forLoop (fun i grid =>
        forLoop (fun j grid =>
          forLoop (fun k grid => grid.addAt i j k (v i j k)) (r2.2 - r2.1) r2.1 grid)
          (r1.2 - r1.1) r1.1 grid)
        (r0.2 - r0.1) r0.1 grid = some grid' ↔
      (∀ i j k, inBox r0 r1 r2 i j k →
          i < grid.extent ∧ j < grid.extent ∧ k < grid.extent) ∧
        grid' = grid.addf (fun i j k => if inBox r0 r1 r2 i j k then v i j k else 0) := by
  rw [forLoop_addf grid.extent
    (fun i grid => forLoop (fun j grid =>
      forLoop (fun k grid => grid.addAt i j k (v i j k)) (r2.2 - r2.1) r2.1 grid)
      (r1.2 - r1.1) r1.1 grid)
    (fun i => ∀ j, r1.1 ≤ j → j < r1.1 + (r1.2 - r1.1) →
      ∀ k, r2.1 ≤ k → k < r2.1 + (r2.2 - r2.1) →
        i < grid.extent ∧ j < grid.extent ∧ k < grid.extent)
    (fun i a b c => if ((r2.1 ≤ c ∧ c < r2.1 + (r2.2 - r2.1)) ∧
        (r1.1 ≤ b ∧ b < r1.1 + (r1.2 - r1.1))) ∧ a = i then v a b c else 0)
    (fun i g1 g2 h => by
      rw [forLoop_j, h]
      have hw : (fun a b c => if (a = i ∧ (r2.1 ≤ c ∧ c < r2.1 + (r2.2 - r2.1))) ∧
            (r1.1 ≤ b ∧ b < r1.1 + (r1.2 - r1.1)) then v a b c else 0)
          = fun a b c => if ((r2.1 ≤ c ∧ c < r2.1 + (r2.2 - r2.1)) ∧
            (r1.1 ≤ b ∧ b < r1.1 + (r1.2 - r1.1))) ∧ a = i then v a b c else 0 := by
        funext a b c
        exact if_congr (by tauto) rfl rfl
      rw [hw]) (r0.2 - r0.1) r0.1 grid grid' rfl]
  have hs : (fun a b c => ∑ t in Finset.range (r0.2 - r0.1),
        if ((r2.1 ≤ c ∧ c < r2.1 + (r2.2 - r2.1)) ∧
          (r1.1 ≤ b ∧ b < r1.1 + (r1.2 - r1.1))) ∧ a = r0.1 + t then v a b c else 0)
      = fun i j k => if inBox r0 r1 r2 i j k then v i j k else 0 := by
    funext a b c
    rw [sum_range_ite]
    refine if_congr ?_ rfl rfl
    unfold inBox
    constructor
    · rintro ⟨⟨⟨h1, h2⟩, h3, h4⟩, h5, h6⟩
      exact ⟨⟨h5, by omega⟩, ⟨h3, by omega⟩, h1, by omega⟩
    · rintro ⟨⟨h1, h2⟩, ⟨h3, h4⟩, h5, h6⟩
      exact ⟨⟨⟨h5, by omega⟩, h3, by omega⟩, h1, by omega⟩
  rw [hs]
  refine and_congr ?_ Iff.rfl
  unfold inBox
  constructor
  · rintro h i j k ⟨⟨h1, h2⟩, ⟨h3, h4⟩, h5, h6⟩
    exact h i h1 (by omega) j h3 (by omega) k h5 (by omega)
  · intro h i h1 h2 j h3 h4 k h5 h6
    exact h i j k ⟨⟨h1, by omega⟩, ⟨h3, by omega⟩, h5, by omega⟩

end Loops

section SetAtom

variable [LinearOrderedField K] [FloorRing K]

/-- What `setAtom` does: it is defined exactly when the three calls of `getrange` are and
every index triple of their box is within the extents of `grid`; it then adds the value
of `calcPoint` at the grid point to every element of the box and leaves the others. -/
theorem NNGridder.setAtom_iff (E : Extern K) (g : NNGridder K) (a : atom K)
    (grid grid' : multi_array K) :
    g.setAtom E a grid = some grid' ↔
      ∃ r0 r1 r2,
        g.getrange g.dims0 a.coords.x (E.xs_radius a.sm * g.radiusmultiple) = some r0 ∧
        g.getrange g.dims1 a.coords.y (E.xs_radius a.sm * g.radiusmultiple) = some r1 ∧
        g.getrange g.dims2 a.coords.z (E.xs_radius a.sm * g.radiusmultiple) = some r2 ∧
        (∀ i j k, inBox r0 r1 r2 i j k →
          i < grid.extent ∧ j < grid.extent ∧ k < grid.extent) ∧
        grid' = grid.addf (fun i j k =>
          if inBox r0 r1 r2 i j k then g.calcPoint E a (g.gridPoint i j k) else 0) := by
  unfold NNGridder.setAtom
  simp only [Option.bind_eq_some]
  constructor
  · rintro ⟨r0, h0, r1, h1, r2, h2, h⟩
    exact ⟨r0, r1, r2, h0, h1, h2,
      (boxLoop_iff (fun i j k => g.calcPoint E a (g.gridPoint i j k)) r0 r1 r2 grid grid').1 h⟩
  · rintro ⟨r0, r1, r2, h0, h1, h2, h⟩
    exact ⟨r0, h0, r1, h1, r2, h2,
      (boxLoop_iff (fun i j k => g.calcPoint E a (g.gridPoint i j k)) r0 r1 r2 grid grid').2 h⟩

end SetAtom

/-! ## The atom loops -/

/-- Zero filled arrays of the same shapes hold the same data. -/
theorem sameArrays_fill_zero [Zero K] (Gs Hs : List (multi_array K)) (h : sameShapes Gs Hs) :
    sameArrays (Gs.map multi_array.fill_zero) (Hs.map multi_array.fill_zero) := by
  refine ⟨by rw [List.length_map, List.length_map, h.1], ?_⟩
  intro c A B hA hB
  rw [List.getElem?_map, Option.map_eq_some'] at hA hB
  obtain ⟨A0, hA0, rfl⟩ := hA
  obtain ⟨B0, hB0, rfl⟩ := hB
  have he := h.2 c A0 B0 hA0 hB0
  refine ⟨he, ?_⟩
  intro i j k hi hj hk
  have hi' : i < A0.extent := hi
  have hj' : j < A0.extent := hj
  have hk' : k < A0.extent := hk
  simp only [multi_array.fill_zero]
  rw [if_pos ⟨hi', hj', hk'⟩, if_pos ⟨he ▸ hi', he ▸ hj', he ▸ hk'⟩]


section AtomLoops

variable [LinearOrderedField K] [FloorRing K]

/-- What the body of the atom loops does: nothing for an unmapped type, and otherwise
`setAtom` on the array of the channel the type is mapped to. -/
theorem NNGridder.setAtomAt_iff (E : Extern K) (g : NNGridder K) (map : List Int)
    (grids grids' : List (multi_array K)) (a : atom K) :
    g.setAtomAt E map grids a = some grids' ↔
      ∃ pos, map[a.sm]? = some pos ∧
        ((pos < 0 ∧ grids' = grids) ∨
          (0 ≤ pos ∧ ∃ G G', grids[pos.toNat]? = some G ∧ g.setAtom E a G = some G' ∧
            grids' = grids.set pos.toNat G')) := by
  unfold NNGridder.setAtomAt
  cases hmap : map[a.sm]? with
  | none => simp
  | some pos =>
    by_cases hpos : pos ≥ 0
    · have hneg : ¬ pos < 0 := not_lt.mpr hpos
      simp only [hpos, if_true, hneg, false_and, false_or, true_and, Option.some.injEq,
        exists_eq_left']
      cases hG : grids[pos.toNat]? with
      | none => simp
      | some G =>
        simp only [Option.map_eq_some', Option.some.injEq, exists_eq_left']
        constructor
        · rintro ⟨G', h1, h2⟩
          exact ⟨G, G', rfl, h1, h2.symm⟩
        · rintro ⟨G1, G', rfl, h1, h2⟩
          exact ⟨G', h1, h2.symm⟩
    · have hneg : pos < 0 := not_le.mp hpos
      have hnn : ¬ 0 ≤ pos := not_le.mpr hneg
      simp only [hpos, if_false, Option.some.injEq, exists_eq_left', hneg, true_and, hnn,
        false_and, or_false]
      exact eq_comm

/-- The accumulation of an atom on an array, in terms of its accumulation on the zero
array of the same extents. -/
theorem NNGridder.setAtom_zeros (E : Extern K) (g : NNGridder K) (a : atom K)
    (G G' : multi_array K) (h : g.setAtom E a G = some G') :
    ∃ A, g.setAtom E a (multi_array.zeros G.extent) = some A ∧ G'.extent = G.extent ∧
      ∀ i j k, G'.data i j k = G.data i j k + A.data i j k := by
  obtain ⟨r0, r1, r2, hr0, hr1, hr2, hin, rfl⟩ := (g.setAtom_iff E a G G').1 h
  refine ⟨_, (g.setAtom_iff E a _ _).2 ⟨r0, r1, r2, hr0, hr1, hr2, hin, rfl⟩, rfl, ?_⟩
  intro i j k
  simp only [multi_array.addf, multi_array.zeros, zero_add]

/-- What the loop over the atoms does to the arrays, channel by channel: the array of
channel `c` keeps its extents and receives the sum of the single-atom accumulations (on a
zero array) of the atoms whose type is mapped to `c`. -/
theorem NNGridder.setAtoms_spec (E : Extern K) (g : NNGridder K) (map : List Int) :
    ∀ (atoms : List (atom K)) (grids grids' : List (multi_array K)),
      g.setAtoms E map atoms grids = some grids' →
      grids'.length = grids.length ∧
      ∀ (c : Nat) (G : multi_array K), grids[c]? = some G →
        ∃ G' singles, grids'[c]? = some G' ∧ G'.extent = G.extent ∧
          List.Forall₂ (fun a A => g.setAtom E a (multi_array.zeros G.extent) = some A)
            (atoms.filter fun a => decide (map[a.sm]? = some (c : Int))) singles ∧
          ∀ i j k, G'.data i j k = G.data i j k + (singles.map fun A => A.data i j k).sum := by
  intro atoms
  induction atoms with
  | nil =>
    intro grids grids' h
    simp only [NNGridder.setAtoms, Option.some.injEq] at h
    subst h
    refine ⟨rfl, fun c G hG => ⟨G, [], hG, rfl, ?_, ?_⟩⟩
    · simp
    · simp
  | cons a rest ih =>
    intro grids grids' h
    simp only [NNGridder.setAtoms, Option.bind_eq_some] at h
    obtain ⟨mid, hmid, hrest⟩ := h
    obtain ⟨hlen, hch⟩ := ih mid grids' hrest
    obtain ⟨pos, hpos, hcase⟩ := (g.setAtomAt_iff E map grids mid a).1 hmid
    rcases hcase with ⟨hneg, rfl⟩ | ⟨hnn, G0, G1, hG0, hset, rfl⟩
    · refine ⟨hlen, fun c G hG => ?_⟩
      obtain ⟨G', singles, h1, h2, h3, h4⟩ := hch c G hG
      refine ⟨G', singles, h1, h2, ?_, h4⟩
      have hne : ¬ (map[a.sm]? = some (c : Int)) := by
        rw [hpos]
        intro hc
        have := Option.some.inj hc
        omega
      rw [List.filter_cons_of_neg (by simpa using hne)]
      exact h3
    · refine ⟨by rw [hlen, List.length_set], fun c G hG => ?_⟩
      by_cases hc : pos.toNat = c
      · subst hc
        have hGG : G0 = G := by
          rw [hG0] at hG
          exact Option.some.inj hG
        subst hGG
        have hlt : pos.toNat < grids.length := (List.getElem?_eq_some.1 hG0).1
        obtain ⟨A, hA, hext, hdata⟩ := g.setAtom_zeros E a G0 G1 hset
        obtain ⟨G', singles, h1, h2, h3, h4⟩ :=
          hch pos.toNat G1 (List.getElem?_set_self hlt)
        refine ⟨G', A :: singles, h1, by rw [h2, hext], ?_, ?_⟩
        · have hyes : map[a.sm]? = some ((pos.toNat : Nat) : Int) := by
            rw [hpos, Int.toNat_of_nonneg hnn]
          rw [List.filter_cons_of_pos (by simpa using hyes)]
          refine List.Forall₂.cons hA ?_
          rw [hext] at h3
          exact h3
        · intro i j k
          rw [h4, hdata, List.map_cons, List.sum_cons, add_assoc]
      · have hG' : (grids.set pos.toNat G1)[c]? = some G := by
          rw [List.getElem?_set_ne hc]
          exact hG
        obtain ⟨G', singles, h1, h2, h3, h4⟩ := hch c G hG'
        refine ⟨G', singles, h1, h2, ?_, h4⟩
        have hne : ¬ (map[a.sm]? = some (c : Int)) := by
          rw [hpos]
          intro h5
          have := Option.some.inj h5
          apply hc
          rw [this]
          exact Int.toNat_ofNat c
        rw [List.filter_cons_of_neg (by simpa using hne)]
        exact h3

/-- On two arrays holding the same data `setAtom` is defined on both or on neither, and
the results hold the same data. -/
theorem NNGridder.setAtom_same (E : Extern K) (g : NNGridder K) (a : atom K)
    (A B A' : multi_array K) (hAB : A.same B) (h : g.setAtom E a A = some A') :
    ∃ B', g.setAtom E a B = some B' ∧ A'.same B' := by
  obtain ⟨r0, r1, r2, hr0, hr1, hr2, hin, rfl⟩ := (g.setAtom_iff E a A A').1 h
  rw [hAB.1] at hin
  refine ⟨_, (g.setAtom_iff E a B _).2 ⟨r0, r1, r2, hr0, hr1, hr2, hin, rfl⟩, hAB.1, ?_⟩
  intro i j k hi hj hk
  simp only [multi_array.addf]
  rw [hAB.2 i j k hi hj hk]

theorem NNGridder.setAtomAt_same (E : Extern K) (g : NNGridder K) (map : List Int)
    (a : atom K) (Gs Hs Gs' : List (multi_array K)) (hs : sameArrays Gs Hs)
    (h : g.setAtomAt E map Gs a = some Gs') :
    ∃ Hs', g.setAtomAt E map Hs a = some Hs' ∧ sameArrays Gs' Hs' := by
  obtain ⟨pos, hpos, hcase⟩ := (g.setAtomAt_iff E map Gs Gs' a).1 h
  rcases hcase with ⟨hneg, rfl⟩ | ⟨hnn, G0, G1, hG0, hset, rfl⟩
  · exact ⟨Hs, (g.setAtomAt_iff E map Hs Hs a).2 ⟨pos, hpos, Or.inl ⟨hneg, rfl⟩⟩, hs⟩
  · have hlt : pos.toNat < Gs.length := (List.getElem?_eq_some.1 hG0).1
    have hlt' : pos.toNat < Hs.length := hs.1 ▸ hlt
    have hH0 : Hs[pos.toNat]? = some (Hs[pos.toNat]) := List.getElem?_eq_getElem hlt'
    obtain ⟨H1, hH1, hsame⟩ := g.setAtom_same E a G0 _ G1 (hs.2 _ _ _ hG0 hH0) hset
    refine ⟨Hs.set pos.toNat H1, (g.setAtomAt_iff E map Hs _ a).2
      ⟨pos, hpos, Or.inr ⟨hnn, _, H1, hH0, hH1, rfl⟩⟩, ?_, ?_⟩
    · rw [List.length_set, List.length_set, hs.1]
    · intro c A B hA hB
      by_cases hc : pos.toNat = c
      · subst hc
        rw [List.getElem?_set_self hlt] at hA
        rw [List.getElem?_set_self hlt'] at hB
        rw [← Option.some.inj hA, ← Option.some.inj hB]
        exact hsame
      · rw [List.getElem?_set_ne hc] at hA hB
        exact hs.2 c A B hA hB

theorem NNGridder.setAtoms_same (E : Extern K) (g : NNGridder K) (map : List Int) :
    ∀ (atoms : List (atom K)) (Gs Hs Gs' : List (multi_array K)), sameArrays Gs Hs →
      g.setAtoms E map atoms Gs = some Gs' →
      ∃ Hs', g.setAtoms E map atoms Hs = some Hs' ∧ sameArrays Gs' Hs' := by
  intro atoms
  induction atoms with
  | nil =>
    intro Gs Hs Gs' hs h
    simp only [NNGridder.setAtoms, Option.some.injEq] at h
    subst h
    exact ⟨Hs, rfl, hs⟩
  | cons a rest ih =>
    intro Gs Hs Gs' hs h
    simp only [NNGridder.setAtoms, Option.bind_eq_some] at h
    obtain ⟨mid, hmid, hrest⟩ := h
    obtain ⟨mid', hmid', hs'⟩ := g.setAtomAt_same E map a Gs Hs mid hs hmid
    obtain ⟨Hs', hHs', hs''⟩ := ih mid mid' Gs' hs' hrest
    refine ⟨Hs', ?_, hs''⟩
    simp only [NNGridder.setAtoms, Option.bind_eq_some]
    exact ⟨mid', hmid', hHs'⟩

/-- The atom loop reads the geometry, the mode and the radius multiple of the object, not
its maps and arrays. -/
theorem NNGridder.setAtoms_congr (E : Extern K) (g : NNGridder K) (map rm : List Int)
    (R M : List (multi_array K)) :
    ∀ (atoms : List (atom K)) (grids : List (multi_array K)),
      NNGridder.setAtoms E { g with rmap := rm, receptorGrids := R, ligandGrids := M } map
          atoms grids
        = g.setAtoms E map atoms grids := by
  intro atoms
  induction atoms with
  | nil => intro grids; rfl
  | cons a rest ih =>
    intro grids
    simp only [NNGridder.setAtoms]
    have h1 : NNGridder.setAtomAt E
        { g with rmap := rm, receptorGrids := R, ligandGrids := M } map grids a
        = g.setAtomAt E map grids a := rfl
    rw [h1]
    congr 1
    funext mid
    exact ih mid

end AtomLoops

/-! ## Properties of `readMolecule` -/

section Refresh

variable [LinearOrderedField K] [FloorRing K]

/-- C8: after a successful `readMolecule` (the source delivered `atoms`, the call returned
true with the new state `g'`), the collection `ligandGrids` has as many arrays as before
and, for every channel `c`, the array `ligandGrids[c]` keeps its extents and holds at every
index within them the sum, over exactly the atoms `a` of the structure with
`lmap[a.sm] = c`, of the single-atom accumulations of `a` on a zero array (exact
arithmetic).  In the loop body, an atom whose type is mapped to a negative value changes no
array, and an atom whose type is mapped to `c` changes no array other than `c`. -/
theorem NNGridder.readMolecule_channels (E : Extern K) (g g' : NNGridder K)
    (atoms : List (atom K)) (h : g.readMolecule E (some atoms) = some (true, g')) :
    g'.ligandGrids.length = g.ligandGrids.length ∧
    (∀ (c : Nat) (G : multi_array K), g.ligandGrids[c]? = some G →
      ∃ G' singles, g'.ligandGrids[c]? = some G' ∧ G'.extent = G.extent ∧
        List.Forall₂ (fun a A => g.setAtom E a (multi_array.zeros G.extent) = some A)
          (atoms.filter fun a => decide (g.lmap[a.sm]? = some (c : Int))) singles ∧
        ∀ i j k, i < G.extent → j < G.extent → k < G.extent →
          G'.data i j k = (singles.map fun A => A.data i j k).sum) ∧
    (∀ (grids : List (multi_array K)) (a : atom K) (pos : Int),
      g.lmap[a.sm]? = some pos → pos < 0 → g.setAtomAt E g.lmap grids a = some grids) ∧
    (∀ (grids grids' : List (multi_array K)) (a : atom K) (c : Int),
      g.lmap[a.sm]? = some c → g.setAtomAt E g.lmap grids a = some grids' →
      ∀ c' : Nat, (c' : Int) ≠ c → grids'[c']? = grids[c']?) := by
  simp only [NNGridder.readMolecule, Option.map_eq_some', Prod.mk.injEq, true_and] at h
  obtain ⟨grids', hset, rfl⟩ := h
  obtain ⟨hlen, hch⟩ := g.setAtoms_spec E g.lmap atoms _ grids' hset
  refine ⟨by rw [hlen, List.length_map], ?_, ?_, ?_⟩
  · intro c G hG
    have hc : (g.ligandGrids.map multi_array.fill_zero)[c]? = some G.fill_zero := by
      rw [List.getElem?_map, hG]
      rfl
    obtain ⟨G', singles, h1, h2, h3, h4⟩ := hch c _ hc
    refine ⟨G', singles, h1, h2, h3, ?_⟩
    intro i j k hi hj hk
    rw [h4]
    simp only [multi_array.fill_zero]
    rw [if_pos ⟨hi, hj, hk⟩, zero_add]
  · intro grids a pos hpos hneg
    exact (g.setAtomAt_iff E g.lmap grids grids a).2 ⟨pos, hpos, Or.inl ⟨hneg, rfl⟩⟩
  · intro grids grids' a c hc hstep c' hne
    obtain ⟨pos, hpos, hcase⟩ := (g.setAtomAt_iff E g.lmap grids grids' a).1 hstep
    rw [hc] at hpos
    have hpc : c = pos := Option.some.inj hpos
    subst hpc
    rcases hcase with ⟨_, rfl⟩ | ⟨hnn, G0, G1, _, _, rfl⟩
    · rfl
    · refine List.getElem?_set_ne ?_
      intro h5
      apply hne
      rw [← h5, Int.toNat_of_nonneg hnn]

/-- C9: the arrays after a successful `readMolecule` do not depend on the previous
contents of the arrays.  If the call on `g` succeeds with the new state `g'`, then on any
object with the same geometry, mode and `lmap` whose variable-side arrays `M` have the
same shapes (and any `rmap` and fixed-side arrays) the call with the same structure
succeeds too and leaves arrays holding the same data; in particular a second call on `g'`
with the same structure succeeds and leaves arrays holding the same data as the first
(exact arithmetic). -/
theorem NNGridder.readMolecule_refresh (E : Extern K) (g g' : NNGridder K)
    (atoms : List (atom K)) (rm : List Int) (R M : List (multi_array K))
    (hM : sameShapes g.ligandGrids M)
    (h : g.readMolecule E (some atoms) = some (true, g')) :
    (∃ h', NNGridder.readMolecule E
          { g with rmap := rm, receptorGrids := R, ligandGrids := M } (some atoms)
          = some (true, h') ∧
        sameArrays g'.ligandGrids h'.ligandGrids) ∧
    (∃ g2, g'.readMolecule E (some atoms) = some (true, g2) ∧
        sameArrays g'.ligandGrids g2.ligandGrids) := by
  simp only [NNGridder.readMolecule, Option.map_eq_some', Prod.mk.injEq, true_and] at h
  obtain ⟨grids', hset, rfl⟩ := h
  have key : ∀ (rm : List Int) (R M : List (multi_array K)), sameShapes g.ligandGrids M →
      ∃ h', NNGridder.readMolecule E
          { g with rmap := rm, receptorGrids := R, ligandGrids := M } (some atoms)
          = some (true, h') ∧
        sameArrays grids' h'.ligandGrids := by
    intro rm R M hM
    obtain ⟨Hs', hHs', hs⟩ := g.setAtoms_same E g.lmap atoms _ _ grids'
      (sameArrays_fill_zero _ _ hM) hset
    refine ⟨{ g with rmap := rm, receptorGrids := R, ligandGrids := Hs' }, ?_, hs⟩
    simp only [NNGridder.readMolecule, NNGridder.setAtoms_congr, hHs', Option.map_some']
  refine ⟨key rm R M hM, ?_⟩
  have hshape : sameShapes g.ligandGrids grids' := by
    obtain ⟨hlen, hch⟩ := g.setAtoms_spec E g.lmap atoms _ grids' hset
    refine ⟨by rw [hlen, List.length_map], ?_⟩
    intro c A B hA hB
    have hc : (g.ligandGrids.map multi_array.fill_zero)[c]? = some A.fill_zero := by
      rw [List.getElem?_map, hA]
      rfl
    obtain ⟨G', _, h1, h2, _⟩ := hch c _ hc
    rw [hB] at h1
    rw [Option.some.inj h1, h2]
    rfl
  exact key g.rmap g.receptorGrids grids' hshape

/-- C10: `readMolecule` returns false when the source fails to deliver a structure, and
the object is then left as it was; and whenever the source delivers a structure the value
it returns is true. -/
theorem NNGridder.readMolecule_result (E : Extern K) (g : NNGridder K) :
    g.readMolecule E none = some (false, g) ∧
    ∀ (atoms : List (atom K)) (r : Bool × NNGridder K),
      g.readMolecule E (some atoms) = some r → r.1 = true := by
  refine ⟨rfl, ?_⟩
  intro atoms r h
  simp only [NNGridder.readMolecule, Option.map_eq_some'] at h
  obtain ⟨grids', _, rfl⟩ := h
  rfl

end Refresh

/-! ## A concrete session

The grid of centre (0,0,0), side 24 and resolution 0.5 in smoothed mode, one channel per
side, and an atom of type 0 (radius 2) at the origin. -/

theorem example_getrange :
    NNGridder.getrange (K := ℝ)
      ⟨0.5, 1.5, false, ⟨-12, 12, 48⟩, ⟨-12, 12, 48⟩, ⟨-12, 12, 48⟩, [0], [0],
        [multi_array.zeros 49], [multi_array.zeros 49]⟩
      ⟨-12, 12, 48⟩ 0 (2 * 1.5) = some (18, 48) := by
  norm_num [NNGridder.getrange, toUnsigned]
  decide

theorem example_setAtom (G : multi_array ℝ) (hG : G.extent = 49) :
    ∃ G', NNGridder.setAtom ⟨Real.sqrt, Real.exp, Real.exp 1, fun _ => 2⟩
      ⟨0.5, 1.5, false, ⟨-12, 12, 48⟩, ⟨-12, 12, 48⟩, ⟨-12, 12, 48⟩, [0], [0],
        [multi_array.zeros 49], [multi_array.zeros 49]⟩
      ⟨0, ⟨0, 0, 0⟩⟩ G = some G' ∧ G'.extent = 49 := by
  refine ⟨_, (NNGridder.setAtom_iff _ _ _ _ _).2 ⟨(18, 48), (18, 48), (18, 48),
    example_getrange, example_getrange, example_getrange, ?_, rfl⟩, hG⟩
  rintro i j k ⟨⟨h1, h2⟩, ⟨h3, h4⟩, h5, h6⟩
  rw [hG]
  simp only at h2 h4 h6
  omega

theorem example_readMolecule :
    ∃ g', NNGridder.readMolecule ⟨Real.sqrt, Real.exp, Real.exp 1, fun _ => 2⟩
      ⟨0.5, 1.5, false, ⟨-12, 12, 48⟩, ⟨-12, 12, 48⟩, ⟨-12, 12, 48⟩, [0], [0],
        [multi_array.zeros 49], [multi_array.zeros 49]⟩
      (some [⟨0, ⟨0, 0, 0⟩⟩]) = some (true, g') := by
  obtain ⟨G', hG', _⟩ := example_setAtom (multi_array.fill_zero (multi_array.zeros 49)) rfl
  have hstep : NNGridder.setAtomAt ⟨Real.sqrt, Real.exp, Real.exp 1, fun _ => 2⟩
      ⟨0.5, 1.5, false, ⟨-12, 12, 48⟩, ⟨-12, 12, 48⟩, ⟨-12, 12, 48⟩, [0], [0],
        [multi_array.zeros 49], [multi_array.zeros 49]⟩
      [0] [multi_array.fill_zero (multi_array.zeros 49)] ⟨0, ⟨0, 0, 0⟩⟩
      = some [G'] :=
    (NNGridder.setAtomAt_iff _ _ _ _ _ _).2
      ⟨0, rfl, Or.inr ⟨le_refl 0, _, G', rfl, hG', rfl⟩⟩
  refine ⟨⟨0.5, 1.5, false, ⟨-12, 12, 48⟩, ⟨-12, 12, 48⟩, ⟨-12, 12, 48⟩, [0], [0],
    [multi_array.zeros 49], [G']⟩, ?_⟩
  simp only [NNGridder.readMolecule, List.map_cons, List.map_nil, NNGridder.setAtoms, hstep,
    Option.some_bind, Option.map_some']

/-- Instance of `NNGridder.readMolecule_channels` (C8) on the concrete session: after the
refresh with the single atom, the one variable-side array is the accumulation of that atom
on a zero array. -/
theorem readMolecule_channels_witness :
    ∃ g', NNGridder.readMolecule ⟨Real.sqrt, Real.exp, Real.exp 1, fun _ => 2⟩
        ⟨0.5, 1.5, false, ⟨-12, 12, 48⟩, ⟨-12, 12, 48⟩, ⟨-12, 12, 48⟩, [0], [0],
        [multi_array.zeros 49], [multi_array.zeros 49]⟩
        (some [⟨0, ⟨0, 0, 0⟩⟩]) = some (true, g') ∧
      g'.ligandGrids.length = 1 ∧
      ∃ G' A, g'.ligandGrids[0]? = some G' ∧ G'.extent = 49 ∧
        NNGridder.setAtom ⟨Real.sqrt, Real.exp, Real.exp 1, fun _ => 2⟩
          ⟨0.5, 1.5, false, ⟨-12, 12, 48⟩, ⟨-12, 12, 48⟩, ⟨-12, 12, 48⟩, [0], [0],
        [multi_array.zeros 49], [multi_array.zeros 49]⟩
          ⟨0, ⟨0, 0, 0⟩⟩ (multi_array.zeros 49) = some A ∧
        ∀ i j k, i < 49 → j < 49 → k < 49 → G'.data i j k = A.data i j k := by
  obtain ⟨g', hg'⟩ := example_readMolecule
  obtain ⟨hlen, hch, _, _⟩ := NNGridder.readMolecule_channels _ _ g' _ hg'
  obtain ⟨G', singles, h1, h2, h3, h4⟩ := hch 0 (multi_array.zeros 49) rfl
  have hf : ([(⟨0, ⟨0, 0, 0⟩⟩ : atom ℝ)].filter
      fun a => decide (([0] : List Int)[a.sm]? = some ((0 : Nat) : Int))) = [⟨0, ⟨0, 0, 0⟩⟩] := by
    simp
  rw [hf] at h3
  cases h3 with
  | cons hA hnil =>
    cases hnil
    refine ⟨g', hg', hlen, G', _, h1, h2, hA, ?_⟩
    intro i j k hi hj hk
    have := h4 i j k hi hj hk
    simpa using this

/-- Instance of `NNGridder.readMolecule_refresh` (C9) on the concrete session: refreshing
twice with the single atom leaves the same data as refreshing once. -/
theorem readMolecule_refresh_witness :
    ∃ g', NNGridder.readMolecule ⟨Real.sqrt, Real.exp, Real.exp 1, fun _ => 2⟩
        ⟨0.5, 1.5, false, ⟨-12, 12, 48⟩, ⟨-12, 12, 48⟩, ⟨-12, 12, 48⟩, [0], [0],
        [multi_array.zeros 49], [multi_array.zeros 49]⟩
        (some [⟨0, ⟨0, 0, 0⟩⟩]) = some (true, g') ∧
      ∃ g2, NNGridder.readMolecule ⟨Real.sqrt, Real.exp, Real.exp 1, fun _ => 2⟩ g'
        (some [⟨0, ⟨0, 0, 0⟩⟩]) = some (true, g2) ∧
        sameArrays g'.ligandGrids g2.ligandGrids := by
  obtain ⟨g', hg'⟩ := example_readMolecule
  obtain ⟨_, g2, h1, h2⟩ := NNGridder.readMolecule_refresh _ _ g' _ [0]
    [multi_array.zeros 49] [multi_array.zeros 49]
    ⟨rfl, fun c A B hA hB => by
      rw [hA] at hB
      rw [Option.some.inj hB]⟩ hg'
  exact ⟨g', hg', g2, h1, h2⟩

/-- Instance of `NNGridder.readMolecule_result` (C10) on the concrete session: the source
delivers the single atom and the call returns true. -/
theorem readMolecule_result_witness :
    ∃ r, NNGridder.readMolecule ⟨Real.sqrt, Real.exp, Real.exp 1, fun _ => 2⟩
        ⟨0.5, 1.5, false, ⟨-12, 12, 48⟩, ⟨-12, 12, 48⟩, ⟨-12, 12, 48⟩, [0], [0],
        [multi_array.zeros 49], [multi_array.zeros 49]⟩
        (some [⟨0, ⟨0, 0, 0⟩⟩]) = some r ∧ r.1 = true := by
  obtain ⟨g', hg'⟩ := example_readMolecule
  exact ⟨_, hg', (NNGridder.readMolecule_result _ _).2 _ _ hg'⟩

/-! ## Further properties of `calcPoint`, `setAtom` and `readMolecule` -/

/-- C11: whatever the source delivers, a call of `readMolecule` leaves the fixed-side
arrays, the three axes of the grid, the resolution, the radius multiple, the mode and both
type maps of the object as they were. -/
theorem NNGridder.readMolecule_frame [LinearOrderedField K] [FloorRing K] (E : Extern K)
    (g : NNGridder K) (fetched : Option (List (atom K))) (r : Bool × NNGridder K)
    (h : g.readMolecule E fetched = some r) :
    r.2.receptorGrids = g.receptorGrids ∧ r.2.dims0 = g.dims0 ∧ r.2.dims1 = g.dims1 ∧
      r.2.dims2 = g.dims2 ∧ r.2.resolution = g.resolution ∧
      r.2.radiusmultiple = g.radiusmultiple ∧ r.2.binary = g.binary ∧
      r.2.rmap = g.rmap ∧ r.2.lmap = g.lmap := by
  cases fetched with
  | none =>
    simp only [NNGridder.readMolecule, Option.some.injEq] at h
    subst h
    exact ⟨rfl, rfl, rfl, rfl, rfl, rfl, rfl, rfl, rfl⟩
  | some atoms =>
    simp only [NNGridder.readMolecule, Option.map_eq_some'] at h
    obtain ⟨grids', _, rfl⟩ := h
    exact ⟨rfl, rfl, rfl, rfl, rfl, rfl, rfl, rfl, rfl⟩

/-- Instance of `NNGridder.readMolecule_frame` (C11) on the concrete session: after the
refresh with the single atom the fixed-side array, the axes and the maps are as before. -/
theorem readMolecule_frame_witness :
    ∃ g', NNGridder.readMolecule ⟨Real.sqrt, Real.exp, Real.exp 1, fun _ => 2⟩
        ⟨0.5, 1.5, false, ⟨-12, 12, 48⟩, ⟨-12, 12, 48⟩, ⟨-12, 12, 48⟩, [0], [0],
        [multi_array.zeros 49], [multi_array.zeros 49]⟩
        (some [⟨0, ⟨0, 0, 0⟩⟩]) = some (true, g') ∧
      g'.receptorGrids = [multi_array.zeros 49] ∧ g'.dims0 = ⟨-12, 12, 48⟩ ∧
      g'.rmap = [0] ∧ g'.lmap = [0] := by
  obtain ⟨g', hg'⟩ := example_readMolecule
  obtain ⟨h1, h2, _, _, _, _, _, h3, h4⟩ := NNGridder.readMolecule_frame _ _ _ _ hg'
  exact ⟨g', hg', h1, h2, h3, h4⟩

/-- C16, evaluated on the code: in smoothed mode, for an atom of radius 2 at the origin,
`calcPoint` is 1 at the origin, `exp(-2)` at (2, 0, 0) and 0 at (3, 0, 0), as claimed; but
at (2.5, 0, 0) it is 1/4, which is more than its value `exp(-2)` at (2, 0, 0): along the x
axis the value increases from distance 2 to distance 2.5 (same defect as C1). -/
theorem calcPoint_not_monotone (g : NNGridder ℝ) :
    NNGridder.calcPoint ⟨Real.sqrt, Real.exp, Real.exp 1, fun _ => 2⟩
        { g with binary := false } ⟨0, ⟨0, 0, 0⟩⟩ ⟨0, 0, 0⟩ = 1
      ∧ NNGridder.calcPoint ⟨Real.sqrt, Real.exp, Real.exp 1, fun _ => 2⟩
        { g with binary := false } ⟨0, ⟨0, 0, 0⟩⟩ ⟨2, 0, 0⟩ = Real.exp (-2)
      ∧ NNGridder.calcPoint ⟨Real.sqrt, Real.exp, Real.exp 1, fun _ => 2⟩
        { g with binary := false } ⟨0, ⟨0, 0, 0⟩⟩ ⟨3, 0, 0⟩ = 0
      ∧ NNGridder.calcPoint ⟨Real.sqrt, Real.exp, Real.exp 1, fun _ => 2⟩
        { g with binary := false } ⟨0, ⟨0, 0, 0⟩⟩ ⟨2.5, 0, 0⟩ = 1 / 4
      ∧ Real.exp (-2) < 1 / 4 := by
  have hs2 : Real.sqrt (2 * 2) = 2 := Real.sqrt_mul_self (by norm_num)
  have hs3 : Real.sqrt (3 * 3) = 3 := Real.sqrt_mul_self (by norm_num)
  have hs25 : Real.sqrt (2.5 * 2.5) = 2.5 := Real.sqrt_mul_self (by norm_num)
  have he : (1 : ℝ) / Real.exp 1 * Real.exp 1 = 1 := by
    field_simp
  refine ⟨?_, ?_, ?_, ?_, ?_⟩
  · simp [NNGridder.calcPoint, vec.sub, vec.norm_sqr, calcPoint_gaussian]
    norm_num
  · simp only [NNGridder.calcPoint, vec.sub, vec.norm_sqr, calcPoint_gaussian, sub_zero,
      mul_zero, add_zero, hs2]
    norm_num
  · simp only [NNGridder.calcPoint, vec.sub, vec.norm_sqr, sub_zero, mul_zero, add_zero, hs3]
    norm_num
  · simp only [NNGridder.calcPoint, vec.sub, vec.norm_sqr, calcPoint_quadratic,
      calcPoint_gaussian, sub_zero, mul_zero, add_zero, hs25, he]
    norm_num
  · have h1 : (2 : ℝ) < Real.exp 1 := by
      have := Real.add_one_lt_exp (one_ne_zero : (1 : ℝ) ≠ 0)
      linarith
    have h2 : Real.exp 2 = Real.exp 1 * Real.exp 1 := by
      rw [← Real.exp_add]
      norm_num
    have h3 : (4 : ℝ) < Real.exp 2 := by
      rw [h2]
      nlinarith
    rw [Real.exp_neg, inv_eq_one_div]
    exact one_div_lt_one_div_of_lt (by norm_num) h3

/-- C19, evaluated on the code: on the grid `begin = -12`, `end = 12`, `n = 48` with the
resolution 0.5, in smoothed mode, for an atom of radius 2 at (12, 0, 0) (centre plus
support radius 15, past the far edge 12): `getrange` returns (42, 48) on the first axis and
the loop of `setAtom` runs while `i < 48`, so the cell of index 48 (coordinate 12, the
atom centre, where `calcPoint` is 1) is not reached and stays 0 on a zero array (same
defect as C4). -/
theorem setAtom_far_edge_not_reached :
    NNGridder.getrange (K := ℝ)
        ⟨0.5, 1.5, false, ⟨-12, 12, 48⟩, ⟨-12, 12, 48⟩, ⟨-12, 12, 48⟩, [], [], [], []⟩
        ⟨-12, 12, 48⟩ 12 (2 * 1.5) = some (42, 48)
      ∧ ∃ grid', NNGridder.setAtom ⟨Real.sqrt, Real.exp, Real.exp 1, fun _ => 2⟩
          ⟨0.5, 1.5, false, ⟨-12, 12, 48⟩, ⟨-12, 12, 48⟩, ⟨-12, 12, 48⟩, [], [], [], []⟩
          ⟨0, ⟨12, 0, 0⟩⟩ (multi_array.zeros 49) = some grid'
        ∧ grid'.data 48 24 24 = 0
        ∧ NNGridder.gridPoint (K := ℝ)
            ⟨0.5, 1.5, false, ⟨-12, 12, 48⟩, ⟨-12, 12, 48⟩, ⟨-12, 12, 48⟩, [], [], [], []⟩
            48 24 24 = ⟨12, 0, 0⟩
        ∧ NNGridder.calcPoint ⟨Real.sqrt, Real.exp, Real.exp 1, fun _ => 2⟩
          ⟨0.5, 1.5, false, ⟨-12, 12, 48⟩, ⟨-12, 12, 48⟩, ⟨-12, 12, 48⟩, [], [], [], []⟩
          ⟨0, ⟨12, 0, 0⟩⟩ ⟨12, 0, 0⟩ = 1 := by
  have hx : NNGridder.getrange (K := ℝ)
      ⟨0.5, 1.5, false, ⟨-12, 12, 48⟩, ⟨-12, 12, 48⟩, ⟨-12, 12, 48⟩, [], [], [], []⟩
      ⟨-12, 12, 48⟩ 12 (2 * 1.5) = some (42, 48) := by
    norm_num [NNGridder.getrange, toUnsigned]
    decide
  have hy : NNGridder.getrange (K := ℝ)
      ⟨0.5, 1.5, false, ⟨-12, 12, 48⟩, ⟨-12, 12, 48⟩, ⟨-12, 12, 48⟩, [], [], [], []⟩
      ⟨-12, 12, 48⟩ 0 (2 * 1.5) = some (18, 48) := by
    norm_num [NNGridder.getrange, toUnsigned]
    decide
  refine ⟨hx, _, (NNGridder.setAtom_iff _ _ _ _ _).2 ⟨(42, 48), (18, 48), (18, 48),
    hx, hy, hy, ?_, rfl⟩, ?_, ?_, ?_⟩
  · rintro i j k ⟨⟨h1, h2⟩, ⟨h3, h4⟩, h5, h6⟩
    simp only [multi_array.zeros] at h2 h4 h6 ⊢
    omega
  · have hb : ¬ inBox (42, 48) (18, 48) (18, 48) 48 24 24 := by
      unfold inBox
      simp
    simp [multi_array.addf, multi_array.zeros, hb]
  · norm_num [NNGridder.gridPoint]
  · simp [NNGridder.calcPoint, vec.sub, vec.norm_sqr, calcPoint_gaussian]
    norm_num

/-- C15: on the grid the constructor sets up for the centre (0,0,0), the side 24 and the
resolution 0.5 (`begin = -12`, `end = 12`, `n = 48`), in binary mode, `setAtom` for an atom
of radius 2 at the origin on the zero 49^3 array is defined and leaves, at every index
triple `(i, j, k)` of 0..48, the value 1 if `x^2 + y^2 + z^2 < 4` and 0 otherwise, where
`(x, y, z) = (-12 + 0.5 i, -12 + 0.5 j, -12 + 0.5 k)`. -/
theorem setAtom_binary_example [LinearOrderedField K] [FloorRing K] (E : Extern K) :
    setupGrid (K := K) ⟨0, 0, 0, 24, 0.5, true⟩
        = some ((⟨-12, 12, 48⟩, ⟨-12, 12, 48⟩, ⟨-12, 12, 48⟩), 49)
      ∧ ∃ grid', NNGridder.setAtom { E with xs_radius := fun _ => 2 }
          ⟨0.5, 1, true, ⟨-12, 12, 48⟩, ⟨-12, 12, 48⟩, ⟨-12, 12, 48⟩, [], [], [], []⟩
          ⟨0, ⟨0, 0, 0⟩⟩ (multi_array.zeros 49) = some grid'
        ∧ grid'.extent = 49
        ∧ ∀ i j k : Nat, i ≤ 48 → j ≤ 48 → k ≤ 48 →
          grid'.data i j k
            = if (-12 + 0.5 * (i : K)) ^ 2 + (-12 + 0.5 * (j : K)) ^ 2
                + (-12 + 0.5 * (k : K)) ^ 2 < 4 then 1 else 0 := by
  have hy : NNGridder.getrange (K := K)
      ⟨0.5, 1, true, ⟨-12, 12, 48⟩, ⟨-12, 12, 48⟩, ⟨-12, 12, 48⟩, [], [], [], []⟩
      ⟨-12, 12, 48⟩ 0 (2 * 1) = some (20, 48) := by
    norm_num [NNGridder.getrange, toUnsigned]
    decide
  have far : ∀ m : Nat, m ≤ 48 → ¬ (20 ≤ m ∧ m < 48) → (4 : K) ≤ (-12 + 0.5 * (m : K)) ^ 2 := by
    intro m hm hout
    by_cases h20 : m < 20
    · have h19 : (m : K) ≤ 19 := by exact_mod_cast Nat.lt_succ_iff.mp h20
      have h0 : (-12 + 0.5 * (m : K)) ≤ -2 := by
        norm_num
        linarith
      nlinarith
    · have h48 : m = 48 := by omega
      subst h48
      norm_num
  refine ⟨?_, _, (NNGridder.setAtom_iff _ _ _ _ _).2 ⟨(20, 48), (20, 48), (20, 48),
    hy, hy, hy, ?_, rfl⟩, rfl, ?_⟩
  · norm_num [setupGrid, cround, toInt]
    decide
  · rintro i j k ⟨⟨h1, h2⟩, ⟨h3, h4⟩, h5, h6⟩
    simp only [multi_array.zeros] at h2 h4 h6 ⊢
    omega
  · intro i j k hi hj hk
    simp only [multi_array.addf, multi_array.zeros, zero_add]
    by_cases hb : inBox (20, 48) (20, 48) (20, 48) i j k
    · rw [if_pos hb]
      simp only [NNGridder.calcPoint, NNGridder.gridPoint, vec.sub, vec.norm_sqr, if_true,
        sub_zero]
      refine if_congr ?_ rfl rfl
      have e : (-12 + (i : K) * 0.5) * (-12 + (i : K) * 0.5)
          + (-12 + (j : K) * 0.5) * (-12 + (j : K) * 0.5)
          + (-12 + (k : K) * 0.5) * (-12 + (k : K) * 0.5)
          = (-12 + 0.5 * (i : K)) ^ 2 + (-12 + 0.5 * (j : K)) ^ 2
            + (-12 + 0.5 * (k : K)) ^ 2 := by
        ring
      rw [e]
      norm_num
    · rw [if_neg hb]
      have hx := sq_nonneg (-12 + 0.5 * (i : K))
      have hy2 := sq_nonneg (-12 + 0.5 * (j : K))
      have hz := sq_nonneg (-12 + 0.5 * (k : K))
      have hge : ¬ ((-12 + 0.5 * (i : K)) ^ 2 + (-12 + 0.5 * (j : K)) ^ 2
          + (-12 + 0.5 * (k : K)) ^ 2 < 4) := by
        unfold inBox at hb
        simp only at hb
        by_cases hi2 : 20 ≤ i ∧ i < 48
        · by_cases hj2 : 20 ≤ j ∧ j < 48
          · have hk2 : ¬ (20 ≤ k ∧ k < 48) := fun h => hb ⟨hi2, hj2, h⟩
            have := far k hk hk2
            linarith
          · have := far j hj hj2
            linarith
        · have := far i hi hi2
          linarith
      rw [if_neg hge]

/-- Instance of `setAtom_binary_example` (C15) over the reals: the cell (24, 24, 24), at
the origin, holds 1 and the cell (20, 24, 24), at (-2, 0, 0), holds 0. -/
theorem setAtom_binary_example_witness :
    ∃ grid', NNGridder.setAtom (K := ℝ)
        { (⟨Real.sqrt, Real.exp, Real.exp 1, fun _ => 2⟩ : Extern ℝ) with xs_radius := fun _ => 2 }
        ⟨0.5, 1, true, ⟨-12, 12, 48⟩, ⟨-12, 12, 48⟩, ⟨-12, 12, 48⟩, [], [], [], []⟩
        ⟨0, ⟨0, 0, 0⟩⟩ (multi_array.zeros 49) = some grid'
      ∧ grid'.data 24 24 24 = 1 ∧ grid'.data 20 24 24 = 0 := by
  obtain ⟨_, grid', h, _, hall⟩ := setAtom_binary_example (K := ℝ) ⟨Real.sqrt, Real.exp, Real.exp 1, fun _ => 2⟩
  refine ⟨grid', h, ?_, ?_⟩
  · rw [hall 24 24 24 (by norm_num) (by norm_num) (by norm_num)]
    norm_num
  · rw [hall 20 24 24 (by norm_num) (by norm_num) (by norm_num)]
    norm_num

/-! ## The geometry set up by the constructor -/

section Nonneg

variable [LinearOrderedField K] [FloorRing K]

end Nonneg

/-- A loop whose first iteration is undefined is undefined. -/
theorem forLoop_first_none {σ : Type} (body : Nat → σ → Option σ) (cnt lo : Nat) (s : σ)
    (h : body lo s = none) : forLoop body (cnt + 1) lo s = none := by
  simp only [forLoop, h, Option.none_bind]

/-- C18, evaluated on the code: for two atom types, the fixed-side map [1, -1] (type 0 is
sent to channel 1 and no type to channel 0) and the variable-side map [-1, 0], on the grid
of centre (0,0,0), side 24 and resolution 0.5, the constructor is defined and leaves
`receptorGrids` with two arrays, of which the array of index 0 is empty (extents 0, not
49); `outputBIN`, which reads every array below the size of the collection at every index
triple of 0..48, then reads out of bounds. -/
theorem create_leaves_gap_empty (E : Extern ℚ) :
    ∃ g, NNGridder.create E 2 ⟨0, 0, 0, 24, 0.5, true⟩ [1, -1] [-1, 0] [] = some g ∧
      g.dims0.n = 48 ∧
      g.receptorGrids.map multi_array.extent = [0, 49] ∧
      g.ligandGrids.map multi_array.extent = [49] ∧
      g.outputBIN [] = none := by
  have hgeo : setupGrid (K := ℚ) ⟨0, 0, 0, 24, 0.5, true⟩
      = some ((⟨-12, 12, 48⟩, ⟨-12, 12, 48⟩, ⟨-12, 12, 48⟩), 49) := by
    norm_num [setupGrid, cround, toInt]
    decide
  refine ⟨⟨0.5, 1, true, ⟨-12, 12, 48⟩, ⟨-12, 12, 48⟩, ⟨-12, 12, 48⟩, [1, -1], [-1, 0],
    [⟨0, fun _ _ _ => 0⟩, multi_array.fill_zero ⟨49, fun _ _ _ => 0⟩],
    [multi_array.fill_zero ⟨49, fun _ _ _ => 0⟩]⟩, ?_, rfl, rfl, rfl, ?_⟩
  · simp [NNGridder.create, hgeo, forLoop, allocLoop, allocGrid, NNGridder.setAtoms]
  · have hn : (48 + 1) % 2 ^ 32 = 48 + 1 := by norm_num
    simp only [NNGridder.outputBIN, hn]
    apply forLoop_first_none
    apply forLoop_first_none
    apply forLoop_first_none
    have h0 : forLoop (fun a (out : List ℚ) =>
        (([⟨0, fun _ _ _ => 0⟩, multi_array.fill_zero ⟨49, fun _ _ _ => 0⟩] :
            List (multi_array ℚ))[a]?).bind fun grid =>
          (grid.get 0 0 0).map fun v => out ++ [v]) (1 + 1) 0 [] = none := by
      apply forLoop_first_none
      simp [multi_array.get]
    simp only [List.length_cons, List.length_nil, Nat.zero_add]
    rw [h0]
    rfl

/-! ## Loops that append to a stream -/

/-- A loop whose iteration `i` appends the block `f i` to the stream appends the blocks of
its index range one after the other. -/
theorem forLoop_collect {α : Type} (f : Nat → Option (List α))
    (body : Nat → List α → Option (List α))
    (hbody : ∀ i s, body i s = (f i).map fun b => s ++ b) :
    ∀ (cnt lo : Nat) (s : List α),
      forLoop body cnt lo s = (collect f cnt lo).map fun b => s ++ b := by
  intro cnt
  induction cnt with
  | zero =>
    intro lo s
    simp [forLoop, collect]
  | succ cnt ih =>
    intro lo s
    simp only [forLoop, collect, hbody]
    cases f lo with
    | none => rfl
    | some b =>
      simp only [Option.map_some', Option.some_bind, ih]
      cases collect f cnt (lo + 1) with
      | none => rfl
      | some rest => simp [List.append_assoc]

/-- When every block of the index range is defined, has length `m` and has the elements
given by `e`, the blocks one after the other are defined, have `cnt * m` elements, and the
element of index `t * m + p` is the element `p` of the block `t`. -/
theorem collect_spec {α : Type} (f : Nat → Option (List α)) (m : Nat)
    (e : Nat → Nat → Option α) :
    ∀ (cnt lo : Nat),
      (∀ t, t < cnt → ∃ b, f (lo + t) = some b ∧ b.length = m ∧
        ∀ p, p < m → b[p]? = e (lo + t) p) →
      ∃ out, collect f cnt lo = some out ∧ out.length = cnt * m ∧
        ∀ t p, t < cnt → p < m → out[t * m + p]? = e (lo + t) p := by
  intro cnt
  induction cnt with
  | zero =>
    intro lo _
    exact ⟨[], rfl, by simp, fun t p ht _ => absurd ht (Nat.not_lt_zero t)⟩
  | succ cnt ih =>
    intro lo h
    obtain ⟨b0, hb0, hlen0, hel0⟩ := h 0 (Nat.succ_pos cnt)
    rw [Nat.add_zero] at hb0 hel0
    obtain ⟨rest, hrest, hlen, hel⟩ := ih (lo + 1) (fun t ht => by
      have := h (t + 1) (Nat.succ_lt_succ ht)
      rw [show lo + (t + 1) = lo + 1 + t by omega] at this
      exact this)
    refine ⟨b0 ++ rest, ?_, ?_, ?_⟩
    · simp only [collect, hb0, hrest, Option.some_bind, Option.map_some']
    · rw [List.length_append, hlen0, hlen]
      ring
    · intro t p ht hp
      cases t with
      | zero =>
        rw [Nat.zero_mul, Nat.zero_add, List.getElem?_append_left (by rw [hlen0]; exact hp),
          Nat.add_zero]
        exact hel0 p hp
      | succ t =>
        have hge : b0.length ≤ (t + 1) * m + p := by
          rw [hlen0, Nat.succ_mul]
          omega
        rw [List.getElem?_append_right hge]
        have hidx : (t + 1) * m + p - b0.length = t * m + p := by
          rw [hlen0, Nat.succ_mul]
          omega
        rw [hidx, hel t p (Nat.lt_of_succ_lt_succ ht) hp]
        rw [show lo + 1 + t = lo + (t + 1) by omega]

/-- Quotient and remainder of `t * m + p` by `m`, for `p < m`. -/
theorem div_mod_block (m t p : Nat) (hp : p < m) :
    (t * m + p) / m = t ∧ (t * m + p) % m = p := by
  have hm : 0 < m := Nat.lt_of_le_of_lt (Nat.zero_le p) hp
  constructor
  · rw [Nat.add_comm, Nat.add_mul_div_right _ _ hm, Nat.div_eq_of_lt hp, Nat.zero_add]
  · rw [Nat.add_comm, Nat.add_mul_mod_self_right, Nat.mod_eq_of_lt hp]

/-- The elements of `cnt` blocks of length `m` one after the other, by position: the
statement of `collect_spec` with the position `q` split into `q / m` and `q % m`. -/
theorem collect_spec_pos {α : Type} (f : Nat → Option (List α)) (m : Nat)
    (e : Nat → Nat → Option α) (cnt : Nat)
    (h : ∀ t, t < cnt → ∃ b, f t = some b ∧ b.length = m ∧ ∀ p, p < m → b[p]? = e t p) :
    ∃ out, collect f cnt 0 = some out ∧ out.length = cnt * m ∧
      ∀ q, q < cnt * m → out[q]? = e (q / m) (q % m) := by
  obtain ⟨out, h1, h2, h3⟩ := collect_spec f m e cnt 0 (fun t ht => by
    rw [Nat.zero_add]
    exact h t ht)
  refine ⟨out, h1, h2, ?_⟩
  intro q hq
  have hm : 0 < m := by
    rcases Nat.eq_zero_or_pos m with h0 | h0
    · rw [h0, Nat.mul_zero] at hq
      exact absurd hq (Nat.not_lt_zero q)
    · exact h0
  have hlt : q / m < cnt := by
    rw [Nat.div_lt_iff_lt_mul hm]
    exact hq
  have := h3 (q / m) (q % m) hlt (Nat.mod_lt q hm)
  rw [Nat.zero_add, Nat.mul_comm, Nat.div_add_mod] at this
  exact this

/-- A loop whose iterations are all defined is defined. -/
theorem forLoop_defined {σ : Type} (body : Nat → σ → Option σ) :
    ∀ (cnt lo : Nat) (s : σ), (∀ i s, lo ≤ i → i < lo + cnt → ∃ s', body i s = some s') →
      ∃ s', forLoop body cnt lo s = some s' := by
  intro cnt
  induction cnt with
  | zero =>
    intro lo s _
    exact ⟨s, rfl⟩
  | succ cnt ih =>
    intro lo s h
    obtain ⟨mid, hmid⟩ := h lo s (Nat.le_refl lo) (by omega)
    obtain ⟨s', hs'⟩ := ih (lo + 1) mid (fun i t h1 h2 => h i t (by omega) (by omega))
    exact ⟨s', by simp only [forLoop, hmid, Option.some_bind, hs']⟩

/-! ## The packed binary output -/

theorem readAll_spec (grids : List (multi_array K)) (n i j k : Nat)
    (hi : i < n) (hj : j < n) (hk : k < n) (hext : ∀ G ∈ grids, n ≤ G.extent) :
    ∃ b, readAll grids i j k = some b ∧ b.length = grids.length ∧
      ∀ a, a < grids.length → b[a]? = (grids[a]?).map fun G => G.data i j k := by
  obtain ⟨b, h1, h2, h3⟩ := collect_spec
    (fun a => (grids[a]?).bind fun grid => (grid.get i j k).map fun v => [v]) 1
    (fun a p => (grids[a]?).map fun G => G.data i j k) grids.length 0 (fun t ht => by
      have hG : grids[0 + t]? = some grids[t] := by
        rw [Nat.zero_add]
        exact List.getElem?_eq_getElem ht
      have hn := hext grids[t] (List.getElem_mem ht)
      have hget : (grids[t]).get i j k = some ((grids[t]).data i j k) := by
        unfold multi_array.get
        rw [if_pos ⟨by omega, by omega, by omega⟩]
      refine ⟨[(grids[t]).data i j k], ?_, rfl, ?_⟩
      · simp only [hG, Option.some_bind, hget, Option.map_some']
      · intro p hp
        have hp0 : p = 0 := by omega
        subst hp0
        simp only [hG, Option.map_some']
        rfl)
  refine ⟨b, h1, by rw [h2, Nat.mul_one], ?_⟩
  intro a ha
  have := h3 a 0 ha Nat.one_pos
  rw [Nat.mul_one, Nat.add_zero, Nat.zero_add] at this
  exact this

theorem NNGridder.binCell_spec (g : NNGridder K) (n i j k : Nat)
    (hi : i < n) (hj : j < n) (hk : k < n)
    (hR : ∀ G ∈ g.receptorGrids, n ≤ G.extent) (hL : ∀ G ∈ g.ligandGrids, n ≤ G.extent) :
    ∃ b, g.binCell i j k = some b ∧
      b.length = g.receptorGrids.length + g.ligandGrids.length ∧
      ∀ c, c < g.receptorGrids.length + g.ligandGrids.length →
        b[c]? = (g.channel c).map fun G => G.data i j k := by
  obtain ⟨b1, h1, hl1, he1⟩ := readAll_spec g.receptorGrids n i j k hi hj hk hR
  obtain ⟨b2, h2, hl2, he2⟩ := readAll_spec g.ligandGrids n i j k hi hj hk hL
  refine ⟨b1 ++ b2, ?_, by rw [List.length_append, hl1, hl2], ?_⟩
  · simp only [NNGridder.binCell, h1, h2, Option.some_bind, Option.map_some']
  · intro c hc
    unfold NNGridder.channel
    by_cases hcr : c < g.receptorGrids.length
    · rw [if_pos hcr, List.getElem?_append_left (by rw [hl1]; exact hcr)]
      exact he1 c hcr
    · rw [if_neg hcr, List.getElem?_append_right (by rw [hl1]; omega), hl1]
      exact he2 _ (by omega)

/-- The stream written by `outputBIN`: the values of the cells, one cell after the other,
with `i` outermost and `k` innermost. -/
theorem NNGridder.outputBIN_eq (g : NNGridder K) (s : List K) :
    g.outputBIN s
      = (collect (fun i => collect (fun j => collect (fun k => g.binCell i j k)
          ((g.dims0.n + 1) % 2 ^ 32) 0) ((g.dims0.n + 1) % 2 ^ 32) 0)
          ((g.dims0.n + 1) % 2 ^ 32) 0).map fun b => s ++ b := by
  unfold NNGridder.outputBIN
  simp only
  have hread : ∀ (grids : List (multi_array K)) (i j k : Nat) (t : List K),
      forLoop (fun a out => (grids[a]?).bind fun grid =>
          (grid.get i j k).map fun v => out ++ [v]) grids.length 0 t
        = (readAll grids i j k).map fun b => t ++ b := by
    intro grids i j k t
    unfold readAll
    refine forLoop_collect _ _ (fun a u => ?_) _ _ _
    cases grids[a]? with
    | none => rfl
    | some grid =>
      simp only [Option.some_bind]
      cases grid.get i j k with
      | none => rfl
      | some v => rfl
  have hcell : ∀ (i j k : Nat) (t : List K),
      ((forLoop (fun a out => (g.receptorGrids[a]?).bind fun grid =>
          (grid.get i j k).map fun v => out ++ [v]) g.receptorGrids.length 0 t).bind
        fun out => forLoop (fun a out => (g.ligandGrids[a]?).bind fun grid =>
          (grid.get i j k).map fun v => out ++ [v]) g.ligandGrids.length 0 out)
        = (g.binCell i j k).map fun b => t ++ b := by
    intro i j k t
    rw [hread]
    unfold NNGridder.binCell
    cases readAll g.receptorGrids i j k with
    | none => rfl
    | some b1 =>
      simp only [Option.map_some', Option.some_bind, hread]
      cases readAll g.ligandGrids i j k with
      | none => rfl
      | some b2 => simp [List.append_assoc]
  refine forLoop_collect _ _ (fun i t => ?_) _ _ _
  refine forLoop_collect _ _ (fun j t => ?_) _ _ _
  refine forLoop_collect _ _ (fun k t => ?_) _ _ _
  exact hcell i j k t

/-- The cells written by `outputBIN` one after the other, for arrays with at least `n`
points per axis: the stream is defined, has `n * (n * (n * C))` values for `C` channels,
and the value at the position `((i * n + j) * n + k) * C + c` is the element `[i][j][k]`
of the array of channel `c`. -/
theorem binStream_spec (g : NNGridder K) (n : Nat)
    (hR : ∀ G ∈ g.receptorGrids, n ≤ G.extent) (hL : ∀ G ∈ g.ligandGrids, n ≤ G.extent) :
    ∃ out, collect (fun i => collect (fun j => collect (fun k => g.binCell i j k) n 0) n 0)
        n 0 = some out ∧
      out.length = n * (n * (n * (g.receptorGrids.length + g.ligandGrids.length))) ∧
      ∀ i j k c, i < n → j < n → k < n →
        c < g.receptorGrids.length + g.ligandGrids.length →
        out[((i * n + j) * n + k) * (g.receptorGrids.length + g.ligandGrids.length) + c]?
          = (g.channel c).map fun G => G.data i j k := by
  generalize hC : g.receptorGrids.length + g.ligandGrids.length = C
  have hrow : ∀ i j, i < n → j < n →
      ∃ b, collect (fun k => g.binCell i j k) n 0 = some b ∧ b.length = n * C ∧
        ∀ q, q < n * C → b[q]? = (g.channel (q % C)).map fun G => G.data i j (q / C) := by
    intro i j hi hj
    exact collect_spec_pos _ C (fun k c => (g.channel c).map fun G => G.data i j k) n
      (fun k hk => by
        have := g.binCell_spec n i j k hi hj hk hR hL
        rw [hC] at this
        exact this)
  have hplane : ∀ i, i < n →
      ∃ b, collect (fun j => collect (fun k => g.binCell i j k) n 0) n 0 = some b ∧
        b.length = n * (n * C) ∧
        ∀ q, q < n * (n * C) → b[q]?
          = (g.channel (q % (n * C) % C)).map fun G =>
              G.data i (q / (n * C)) (q % (n * C) / C) := by
    intro i hi
    exact collect_spec_pos _ (n * C)
      (fun j q => (g.channel (q % C)).map fun G => G.data i j (q / C)) n
      (fun j hj => hrow i j hi hj)
  obtain ⟨out, h1, h2, h3⟩ := collect_spec_pos
    (fun i => collect (fun j => collect (fun k => g.binCell i j k) n 0) n 0) (n * (n * C))
    (fun i q => (g.channel (q % (n * C) % C)).map fun G =>
      G.data i (q / (n * C)) (q % (n * C) / C)) n (fun i hi => hplane i hi)
  refine ⟨out, h1, h2, ?_⟩
  intro i j k c hi hj hk hc
  have hq2 : k * C + c < n * C := by
    calc k * C + c < k * C + C := by omega
      _ = (k + 1) * C := by ring
      _ ≤ n * C := Nat.mul_le_mul_right C hk
  have hq1 : j * (n * C) + (k * C + c) < n * (n * C) := by
    calc j * (n * C) + (k * C + c) < j * (n * C) + n * C := by omega
      _ = (j + 1) * (n * C) := by ring
      _ ≤ n * (n * C) := Nat.mul_le_mul_right (n * C) hj
  have hq0 : i * (n * (n * C)) + (j * (n * C) + (k * C + c)) < n * (n * (n * C)) := by
    calc i * (n * (n * C)) + (j * (n * C) + (k * C + c))
        < i * (n * (n * C)) + n * (n * C) := by omega
      _ = (i + 1) * (n * (n * C)) := by ring
      _ ≤ n * (n * (n * C)) := Nat.mul_le_mul_right (n * (n * C)) hi
  have hpos : ((i * n + j) * n + k) * C + c
      = i * (n * (n * C)) + (j * (n * C) + (k * C + c)) := by ring
  rw [hpos, h3 _ hq0]
  obtain ⟨d0, m0⟩ := div_mod_block (n * (n * C)) i _ hq1
  obtain ⟨d1, m1⟩ := div_mod_block (n * C) j _ hq2
  obtain ⟨d2, m2⟩ := div_mod_block C k c hc
  rw [d0, m0, d1, m1, d2, m2]

/-- C12: when the count plus one fits an `unsigned` and every fixed-side and variable-side
array has at least `n = count + 1` points per axis, `outputBIN` is defined and appends to
the stream exactly `n^3 * (R + L)` values and nothing else, where `R` and `L` are the
numbers of fixed-side and variable-side arrays; with `C = R + L`, the value at the position
`((i * n + j) * n + k) * C + c` is the element `[i][j][k]` of the array of channel `c`
(`receptorGrids[c]` when `c < R`, `ligandGrids[c - R]` otherwise), unchanged. -/
theorem NNGridder.outputBIN_layout (g : NNGridder K) (s : List K)
    (hn : g.dims0.n + 1 < 2 ^ 32)
    (hR : ∀ G ∈ g.receptorGrids, g.dims0.n + 1 ≤ G.extent)
    (hL : ∀ G ∈ g.ligandGrids, g.dims0.n + 1 ≤ G.extent) :
    ∃ out, g.outputBIN s = some (s ++ out) ∧
      out.length
        = (g.dims0.n + 1) ^ 3 * (g.receptorGrids.length + g.ligandGrids.length) ∧
      ∀ i j k c, i < g.dims0.n + 1 → j < g.dims0.n + 1 → k < g.dims0.n + 1 →
        c < g.receptorGrids.length + g.ligandGrids.length →
        out[((i * (g.dims0.n + 1) + j) * (g.dims0.n + 1) + k)
              * (g.receptorGrids.length + g.ligandGrids.length) + c]?
          = (g.channel c).map fun G => G.data i j k := by
  obtain ⟨out, h1, h2, h3⟩ := binStream_spec g (g.dims0.n + 1) hR hL
  refine ⟨out, ?_, ?_, h3⟩
  · rw [NNGridder.outputBIN_eq, Nat.mod_eq_of_lt hn, h1]
    rfl
  · rw [h2]
    ring

/-! ## The text output -/

/-- The samples written by `outputMAPGrid`, one after the other, with `k` outermost and
`i` innermost. -/
theorem samples_spec (grid : multi_array K) (n : Nat) (hG : n ≤ grid.extent) :
    ∃ b, collect (fun k => collect (fun j => collect (fun i =>
          (grid.get i j k).map fun v => [MapItem.value v]) n 0) n 0) n 0 = some b ∧
      b.length = n ^ 3 ∧
      ∀ i j k, i < n → j < n → k < n →
        b[(k * n + j) * n + i]? = some (MapItem.value (grid.data i j k)) := by
  have hcell : ∀ j k, j < n → k < n → ∀ i, i < n →
      ∃ b, ((grid.get i j k).map fun v => [MapItem.value v]) = some b ∧ b.length = 1 ∧
        ∀ p, p < 1 → b[p]? = some (MapItem.value (grid.data i j k)) := by
    intro j k hj hk i hi
    refine ⟨[MapItem.value (grid.data i j k)], ?_, rfl, ?_⟩
    · unfold multi_array.get
      rw [if_pos ⟨by omega, by omega, by omega⟩]
      rfl
    · intro p hp
      have hp0 : p = 0 := by omega
      subst hp0
      rfl
  have hrow : ∀ j k, j < n → k < n →
      ∃ b, collect (fun i => (grid.get i j k).map fun v => [MapItem.value v]) n 0 = some b ∧
        b.length = n * 1 ∧
        ∀ q, q < n * 1 → b[q]? = some (MapItem.value (grid.data (q / 1) j k)) := by
    intro j k hj hk
    exact collect_spec_pos _ 1 (fun i _ => some (MapItem.value (grid.data i j k))) n
      (hcell j k hj hk)
  have hplane : ∀ k, k < n →
      ∃ b, collect (fun j => collect (fun i =>
          (grid.get i j k).map fun v => [MapItem.value v]) n 0) n 0 = some b ∧
        b.length = n * (n * 1) ∧
        ∀ q, q < n * (n * 1) →
          b[q]? = some (MapItem.value (grid.data (q % (n * 1) / 1) (q / (n * 1)) k)) := by
    intro k hk
    exact collect_spec_pos _ (n * 1)
      (fun j q => some (MapItem.value (grid.data (q / 1) j k))) n
      (fun j hj => hrow j k hj hk)
  obtain ⟨b, h1, h2, h3⟩ := collect_spec_pos
    (fun k => collect (fun j => collect (fun i =>
      (grid.get i j k).map fun v => [MapItem.value v]) n 0) n 0) (n * (n * 1))
    (fun k q => some (MapItem.value (grid.data (q % (n * 1) / 1) (q / (n * 1)) k))) n
    (fun k hk => hplane k hk)
  refine ⟨b, h1, by rw [h2]; ring, ?_⟩
  intro i j k hi hj hk
  have hq1 : j * (n * 1) + i < n * (n * 1) := by
    calc j * (n * 1) + i < j * (n * 1) + n * 1 := by omega
      _ = (j + 1) * (n * 1) := by ring
      _ ≤ n * (n * 1) := Nat.mul_le_mul_right (n * 1) hj
  have hq0 : k * (n * (n * 1)) + (j * (n * 1) + i) < n * (n * (n * 1)) := by
    calc k * (n * (n * 1)) + (j * (n * 1) + i)
        < k * (n * (n * 1)) + n * (n * 1) := by omega
      _ = (k + 1) * (n * (n * 1)) := by ring
      _ ≤ n * (n * (n * 1)) := Nat.mul_le_mul_right (n * (n * 1)) hk
  have hpos : (k * n + j) * n + i = k * (n * (n * 1)) + (j * (n * 1) + i) := by ring
  rw [hpos, h3 _ hq0]
  obtain ⟨d0, m0⟩ := div_mod_block (n * (n * 1)) k _ hq1
  obtain ⟨d1, m1⟩ := div_mod_block (n * 1) j i (by omega)
  rw [d0, m0, d1, m1, Nat.div_one]

section TextOutput

variable [LinearOrderedField K]

/-- The items written by `outputMAPGrid`: the header and then the samples, with `k`
outermost and `i` innermost. -/
theorem NNGridder.outputMAPGrid_eq (g : NNGridder K) (s : List (MapItem K))
    (grid : multi_array K) (hn : g.dims0.n + 1 < 2 ^ 32) :
    g.outputMAPGrid s grid
      = (collect (fun k => collect (fun j => collect (fun i =>
          (grid.get i j k).map fun v => [MapItem.value v]) (g.dims0.n + 1) 0)
          (g.dims0.n + 1) 0) (g.dims0.n + 1) 0).map fun samples =>
        s ++ [.text "GRID_PARAMETER_FILE\nGRID_DATA_FILE\nMACROMOLECULE\n",
          .text "SPACING ", .value g.resolution, .text "\n",
          .text "NELEMENTS ", .count g.dims0.n, .text " ", .count g.dims0.n, .text " ",
          .count g.dims0.n, .text "\n",
          .text "CENTER",
          .text " ", .value ((g.dims0.end_ + g.dims0.begin) / 2),
          .text " ", .value ((g.dims1.end_ + g.dims1.begin) / 2),
          .text " ", .value ((g.dims2.end_ + g.dims2.begin) / 2),
          .text "\n"] ++ samples := by
  have hmax : (g.dims0.n + 1) % 2 ^ 32 = g.dims0.n + 1 := Nat.mod_eq_of_lt hn
  have hcnt : (g.dims0.n + 1 + 2 ^ 32 - 1) % 2 ^ 32 = g.dims0.n := by omega
  unfold NNGridder.outputMAPGrid
  simp only [hmax, hcnt]
  rw [forLoop_collect (fun k => collect (fun j => collect (fun i =>
      (grid.get i j k).map fun v => [MapItem.value v]) (g.dims0.n + 1) 0)
      (g.dims0.n + 1) 0) _ (fun k t => ?_)]
  · cases collect (fun k => collect (fun j => collect (fun i =>
        (grid.get i j k).map fun v => [MapItem.value v]) (g.dims0.n + 1) 0)
        (g.dims0.n + 1) 0) (g.dims0.n + 1) 0 with
    | none => rfl
    | some b => simp [List.append_assoc]
  · refine forLoop_collect _ _ (fun j t => ?_) _ _ _
    refine forLoop_collect _ _ (fun i t => ?_) _ _ _
    cases grid.get i j k with
    | none => rfl
    | some v => rfl

/-- C14: when the count plus one fits an `unsigned` and `grid` has at least `count + 1`
points per axis, `outputMAPGrid` is defined and appends to the stream the header, which
reports the spacing `resolution`, three times the count `dims[0].n` (the number of points
per axis minus one) and the centre `(end + begin) / 2` of each axis, followed by exactly
`(count + 1)^3` samples and nothing else; the sample of position
`(k * (count + 1) + j) * (count + 1) + i` is `grid[i][j][k]` (`i` varies fastest). -/
theorem NNGridder.outputMAPGrid_layout (g : NNGridder K) (s : List (MapItem K))
    (grid : multi_array K) (hn : g.dims0.n + 1 < 2 ^ 32)
    (hG : g.dims0.n + 1 ≤ grid.extent) :
    ∃ samples, g.outputMAPGrid s grid
        = some (s ++ [.text "GRID_PARAMETER_FILE\nGRID_DATA_FILE\nMACROMOLECULE\n",
          .text "SPACING ", .value g.resolution, .text "\n",
          .text "NELEMENTS ", .count g.dims0.n, .text " ", .count g.dims0.n, .text " ",
          .count g.dims0.n, .text "\n",
          .text "CENTER",
          .text " ", .value ((g.dims0.end_ + g.dims0.begin) / 2),
          .text " ", .value ((g.dims1.end_ + g.dims1.begin) / 2),
          .text " ", .value ((g.dims2.end_ + g.dims2.begin) / 2),
          .text "\n"] ++ samples) ∧
      samples.length = (g.dims0.n + 1) ^ 3 ∧
      ∀ i j k, i < g.dims0.n + 1 → j < g.dims0.n + 1 → k < g.dims0.n + 1 →
        samples[(k * (g.dims0.n + 1) + j) * (g.dims0.n + 1) + i]?
          = some (.value (grid.data i j k)) := by
  obtain ⟨b, h1, h2, h3⟩ := samples_spec grid (g.dims0.n + 1) hG
  refine ⟨b, ?_, h2, h3⟩
  rw [NNGridder.outputMAPGrid_eq g s grid hn, h1]
  rfl

/-- The files written by one of the two loops of `outputMAP`, for the arrays `grids` and
the type map `map`: one file per array, in order, whose content is what `outputMAPGrid`
writes for that array. -/
theorem mapFiles_spec (NumTypes : Nat) (ts : Nat → String) (g : NNGridder K) (base : String)
    (map : List Int) (grids : List (multi_array K)) (files0 : List (String × List (MapItem K)))
    (hn : g.dims0.n + 1 < 2 ^ 32) (hmap : NumTypes ≤ map.length)
    (hext : ∀ G ∈ grids, g.dims0.n + 1 ≤ G.extent) :
    ∃ files, forLoop (fun a files =>
          (getIndexName NumTypes ts map a).bind fun name =>
          (grids[a]?).bind fun grid =>
          (g.outputMAPGrid [] grid).map fun content =>
            files ++ [(base ++ "_" ++ name ++ ".map", content)])
        grids.length 0 files0 = some (files0 ++ files) ∧
      files.length = grids.length ∧
      ∀ a, a < grids.length → ∃ name content G, files[a]? = some (name, content) ∧
        grids[a]? = some G ∧ g.outputMAPGrid [] G = some content := by
  have hname : ∀ a, ∃ name, getIndexName NumTypes ts map a = some name := by
    intro a
    unfold getIndexName
    refine forLoop_defined _ _ _ _ (fun i t _ hi => ?_)
    have hlt : i < map.length := by omega
    rw [List.getElem?_eq_getElem hlt]
    exact ⟨_, rfl⟩
  rw [forLoop_collect (fun a => (getIndexName NumTypes ts map a).bind fun name =>
      (grids[a]?).bind fun grid => (g.outputMAPGrid [] grid).map fun content =>
        [(base ++ "_" ++ name ++ ".map", content)]) _ (fun a t => by
      beta_reduce
      cases getIndexName NumTypes ts map a with
      | none => rfl
      | some name =>
        simp only [Option.some_bind]
        cases grids[a]? with
        | none => rfl
        | some grid =>
          simp only [Option.some_bind]
          cases g.outputMAPGrid [] grid with
          | none => rfl
          | some content => rfl)]
  obtain ⟨out, h1, h2, h3⟩ := collect_spec
    (fun a => (getIndexName NumTypes ts map a).bind fun name =>
      (grids[a]?).bind fun grid => (g.outputMAPGrid [] grid).map fun content =>
        [(base ++ "_" ++ name ++ ".map", content)]) 1
    (fun a _ => (getIndexName NumTypes ts map a).bind fun name =>
      (grids[a]?).bind fun grid => (g.outputMAPGrid [] grid).map fun content =>
        (base ++ "_" ++ name ++ ".map", content)) grids.length 0 (fun t ht => by
      rw [Nat.zero_add]
      obtain ⟨name, hname'⟩ := hname t
      obtain ⟨content, hcontent⟩ : ∃ content, g.outputMAPGrid [] grids[t] = some content := by
        obtain ⟨samples, hc, _⟩ := samples_spec grids[t] (g.dims0.n + 1)
          (hext _ (List.getElem_mem ht))
        rw [NNGridder.outputMAPGrid_eq g [] _ hn, hc]
        exact ⟨_, rfl⟩
      beta_reduce
      refine ⟨[(base ++ "_" ++ name ++ ".map", content)], ?_, rfl, ?_⟩
      · simp only [hname', Option.some_bind, List.getElem?_eq_getElem ht, hcontent,
          Option.map_some']
      · intro p hp
        have hp0 : p = 0 := by omega
        subst hp0
        simp only [hname', Option.some_bind, List.getElem?_eq_getElem ht, hcontent,
          Option.map_some']
        rfl)
  refine ⟨out, by rw [h1]; rfl, by rw [h2, Nat.mul_one], ?_⟩
  intro a ha
  have hel := h3 a 0 ha Nat.one_pos
  rw [Nat.mul_one, Nat.add_zero, Nat.zero_add] at hel
  obtain ⟨name, hname'⟩ := hname a
  obtain ⟨content, hcontent⟩ : ∃ content, g.outputMAPGrid [] grids[a] = some content := by
    obtain ⟨samples, hc, _⟩ := samples_spec grids[a] (g.dims0.n + 1)
      (hext _ (List.getElem_mem ha))
    rw [NNGridder.outputMAPGrid_eq g [] _ hn, hc]
    exact ⟨_, rfl⟩
  refine ⟨base ++ "_" ++ name ++ ".map", content, grids[a], ?_,
    List.getElem?_eq_getElem ha, hcontent⟩
  rw [hel]
  simp only [hname', Option.some_bind, List.getElem?_eq_getElem ha, hcontent,
    Option.map_some']

/-- C13: when the count plus one fits an `unsigned`, every array has at least
`n = count + 1` points per axis and both type maps cover the `NumTypes` atom types,
`outputBIN` and `outputMAP` are defined; `outputMAP` writes one file per channel, the
fixed-side channels first and then the variable-side ones, and for every channel `c` and
every index triple `(i, j, k)` below `n` the value found in the packed stream at the
position `((i * n + j) * n + k) * C + c` (with `C` the number of channels) is the value
found in the file of channel `c` as the sample of position `(k * n + j) * n + i` after the
19 items of the header; both are the element `[i][j][k]` of the array of the channel. -/
theorem NNGridder.outputBIN_outputMAP_agree (NumTypes : Nat) (ts : Nat → String)
    (g : NNGridder K) (base : String) (hn : g.dims0.n + 1 < 2 ^ 32)
    (hrmap : NumTypes ≤ g.rmap.length) (hlmap : NumTypes ≤ g.lmap.length)
    (hR : ∀ G ∈ g.receptorGrids, g.dims0.n + 1 ≤ G.extent)
    (hL : ∀ G ∈ g.ligandGrids, g.dims0.n + 1 ≤ G.extent) :
    ∃ bin files, g.outputBIN [] = some bin ∧
      NNGridder.outputMAP NumTypes ts g base = some files ∧
      files.length = g.receptorGrids.length + g.ligandGrids.length ∧
      ∀ i j k c, i < g.dims0.n + 1 → j < g.dims0.n + 1 → k < g.dims0.n + 1 →
        c < g.receptorGrids.length + g.ligandGrids.length →
        ∃ name content G, files[c]? = some (name, content) ∧ g.channel c = some G ∧
          bin[((i * (g.dims0.n + 1) + j) * (g.dims0.n + 1) + k)
              * (g.receptorGrids.length + g.ligandGrids.length) + c]?
            = some (G.data i j k) ∧
          content[19 + ((k * (g.dims0.n + 1) + j) * (g.dims0.n + 1) + i)]?
            = some (.value (G.data i j k)) := by
  obtain ⟨bin, hbin, _, hbinel⟩ := binStream_spec g (g.dims0.n + 1) hR hL
  obtain ⟨rf, hrf, hrlen, hrel⟩ := mapFiles_spec NumTypes ts g base g.rmap g.receptorGrids []
    hn hrmap hR
  obtain ⟨lf, hlf, hllen, hlel⟩ := mapFiles_spec NumTypes ts g base g.lmap g.ligandGrids
    ([] ++ rf) hn hlmap hL
  refine ⟨bin, rf ++ lf, ?_, ?_, by rw [List.length_append, hrlen, hllen], ?_⟩
  · rw [NNGridder.outputBIN_eq, Nat.mod_eq_of_lt hn, hbin]
    rfl
  · unfold NNGridder.outputMAP
    rw [hrf, Option.some_bind, hlf]
    rfl
  · intro i j k c hi hj hk hc
    have hfile : ∃ name content G, (rf ++ lf)[c]? = some (name, content) ∧
        g.channel c = some G ∧ g.outputMAPGrid [] G = some content := by
      unfold NNGridder.channel
      by_cases hcr : c < g.receptorGrids.length
      · rw [if_pos hcr, List.getElem?_append_left (by rw [hrlen]; exact hcr)]
        exact hrel c hcr
      · rw [if_neg hcr, List.getElem?_append_right (by rw [hrlen]; omega), hrlen]
        exact hlel _ (by omega)
    obtain ⟨name, content, G, hf, hch, hcontent⟩ := hfile
    have hGext : g.dims0.n + 1 ≤ G.extent := by
      unfold NNGridder.channel at hch
      split at hch
      · exact hR G (List.getElem?_mem hch)
      · exact hL G (List.getElem?_mem hch)
    obtain ⟨samples, hsamp, _, hsel⟩ := samples_spec G (g.dims0.n + 1) hGext
    rw [NNGridder.outputMAPGrid_eq g [] G hn, hsamp] at hcontent
    have hc' := (Option.some.inj hcontent).symm
    refine ⟨name, content, G, hf, hch, ?_, ?_⟩
    · rw [hbinel i j k c hi hj hk hc, hch]
      rfl
    · rw [hc', List.getElem?_append_right (by simp)]
      simp only [List.nil_append, List.length_cons, List.length_nil]
      rw [show 19 + ((k * (g.dims0.n + 1) + j) * (g.dims0.n + 1) + i) - (0 + 1 + 1 + 1 + 1
          + 1 + 1 + 1 + 1 + 1 + 1 + 1 + 1 + 1 + 1 + 1 + 1 + 1 + 1 + 1)
          = (k * (g.dims0.n + 1) + j) * (g.dims0.n + 1) + i by omega]
      exact hsel i j k hi hj hk

end TextOutput

/-! ## The output of a concrete session

The grid of centre (0,0,0), side 24 and resolution 0.5 with one zero array per side. -/

/-- Instance of `NNGridder.outputBIN_layout` (C12): the packed stream of the concrete
session has 49^3 * 2 values, and the value written for the cell (1, 2, 3) of channel 1 is
the zero held by the variable-side array. -/
theorem outputBIN_layout_witness :
    ∃ out, NNGridder.outputBIN (K := ℚ)
        ⟨0.5, 1, true, ⟨-12, 12, 48⟩, ⟨-12, 12, 48⟩, ⟨-12, 12, 48⟩, [0], [0],
        [multi_array.zeros 49], [multi_array.zeros 49]⟩ [] = some out ∧
      out.length = 49 ^ 3 * 2 ∧ out[((1 * 49 + 2) * 49 + 3) * 2 + 1]? = some 0 := by
  obtain ⟨out, h1, h2, h3⟩ := NNGridder.outputBIN_layout (K := ℚ)
    ⟨0.5, 1, true, ⟨-12, 12, 48⟩, ⟨-12, 12, 48⟩, ⟨-12, 12, 48⟩, [0], [0],
        [multi_array.zeros 49], [multi_array.zeros 49]⟩ [] (by norm_num)
    (by simp [multi_array.zeros]) (by simp [multi_array.zeros])
  refine ⟨out, by simpa using h1, h2, ?_⟩
  have := h3 1 2 3 1 (by norm_num) (by norm_num) (by norm_num) (by norm_num)
  simpa [NNGridder.channel, multi_array.zeros] using this

/-- Instance of `NNGridder.outputMAPGrid_layout` (C14) for the centre (0,0,0), the side 24
and the resolution 0.5: the header reports the spacing 0.5, the count 48 three times and
the centre 0 0 0, and 49^3 samples follow. -/
theorem outputMAPGrid_layout_witness :
    ∃ samples, NNGridder.outputMAPGrid (K := ℚ)
        ⟨0.5, 1, true, ⟨-12, 12, 48⟩, ⟨-12, 12, 48⟩, ⟨-12, 12, 48⟩, [0], [0],
        [multi_array.zeros 49], [multi_array.zeros 49]⟩ [] (multi_array.zeros 49)
        = some ([.text "GRID_PARAMETER_FILE\nGRID_DATA_FILE\nMACROMOLECULE\n",
          .text "SPACING ", .value 0.5, .text "\n",
          .text "NELEMENTS ", .count 48, .text " ", .count 48, .text " ", .count 48,
          .text "\n",
          .text "CENTER", .text " ", .value 0, .text " ", .value 0, .text " ", .value 0,
          .text "\n"] ++ samples) ∧
      samples.length = 49 ^ 3 := by
  obtain ⟨samples, h1, h2, _⟩ := NNGridder.outputMAPGrid_layout (K := ℚ)
    ⟨0.5, 1, true, ⟨-12, 12, 48⟩, ⟨-12, 12, 48⟩, ⟨-12, 12, 48⟩, [0], [0],
        [multi_array.zeros 49], [multi_array.zeros 49]⟩ [] (multi_array.zeros 49) (by norm_num) (by simp [multi_array.zeros])
  refine ⟨samples, ?_, h2⟩
  have e : ((12 : ℚ) + -12) / 2 = 0 := by norm_num
  rw [h1]
  simp only [e, List.nil_append]

/-- Instance of `NNGridder.outputBIN_outputMAP_agree` (C13) on the concrete session with
one atom type: two files are written, and for the cell (1, 2, 3) of channel 1 the packed
stream and the second file hold the same value. -/
theorem outputBIN_outputMAP_agree_witness :
    ∃ bin files, NNGridder.outputBIN (K := ℚ)
        ⟨0.5, 1, true, ⟨-12, 12, 48⟩, ⟨-12, 12, 48⟩, ⟨-12, 12, 48⟩, [0], [0],
        [multi_array.zeros 49], [multi_array.zeros 49]⟩ [] = some bin ∧
      NNGridder.outputMAP (K := ℚ) 1 (fun _ => "C")
        ⟨0.5, 1, true, ⟨-12, 12, 48⟩, ⟨-12, 12, 48⟩, ⟨-12, 12, 48⟩, [0], [0],
        [multi_array.zeros 49], [multi_array.zeros 49]⟩ "grid" = some files ∧
      files.length = 2 ∧
      ∃ name content v, files[1]? = some (name, content) ∧
        bin[((1 * 49 + 2) * 49 + 3) * 2 + 1]? = some v ∧
        content[19 + ((3 * 49 + 2) * 49 + 1)]? = some (.value v) := by
  obtain ⟨bin, files, h1, h2, h3, h4⟩ := NNGridder.outputBIN_outputMAP_agree (K := ℚ) 1
    (fun _ => "C")
    ⟨0.5, 1, true, ⟨-12, 12, 48⟩, ⟨-12, 12, 48⟩, ⟨-12, 12, 48⟩, [0], [0],
        [multi_array.zeros 49], [multi_array.zeros 49]⟩ "grid" (by norm_num)
    (by simp) (by simp) (by simp [multi_array.zeros]) (by simp [multi_array.zeros])
  obtain ⟨name, content, G, h5, _, h6, h7⟩ :=
    h4 1 2 3 1 (by norm_num) (by norm_num) (by norm_num) (by norm_num)
  exact ⟨bin, files, h1, h2, h3, name, content, G.data 1 2 3, h5, h6, h7⟩

/-! ## Properties of `getrange` and `setAtom` on concrete grids -/

/-- C4, evaluated on the code: on the grid the constructor sets up for the centre (0,0,0),
the side 24 and the resolution 0.5 (`begin = -12`, `end = 12`, `n = 48`), in binary mode,
for an atom of radius 2 at (11.5, 0, 0): the grid point of indices (48, 24, 24), at
(12, 0, 0), is at distance 0.5 from the atom and `calcPoint` is 1 there, but `getrange`
returns (43, 48) on the first axis, the loop of `setAtom` stops before the index 48, and
the cell (48, 24, 24) of a zero array is still 0 after `setAtom`. -/
theorem setAtom_skips_last_index (E : Extern ℚ) :
    setupGrid (K := ℚ) ⟨0, 0, 0, 24, 0.5, true⟩
        = some ((⟨-12, 12, 48⟩, ⟨-12, 12, 48⟩, ⟨-12, 12, 48⟩), 49)
      ∧ NNGridder.getrange (K := ℚ)
          ⟨0.5, 1, true, ⟨-12, 12, 48⟩, ⟨-12, 12, 48⟩, ⟨-12, 12, 48⟩, [], [], [], []⟩
          ⟨-12, 12, 48⟩ 11.5 (2 * 1) = some (43, 48)
      ∧ ∃ grid', NNGridder.setAtom { E with xs_radius := fun _ => 2 }
          ⟨0.5, 1, true, ⟨-12, 12, 48⟩, ⟨-12, 12, 48⟩, ⟨-12, 12, 48⟩, [], [], [], []⟩
          ⟨0, ⟨11.5, 0, 0⟩⟩ (multi_array.zeros 49) = some grid'
        ∧ grid'.data 48 24 24 = 0
        ∧ NNGridder.calcPoint { E with xs_radius := fun _ => 2 }
          ⟨0.5, 1, true, ⟨-12, 12, 48⟩, ⟨-12, 12, 48⟩, ⟨-12, 12, 48⟩, [], [], [], []⟩
          ⟨0, ⟨11.5, 0, 0⟩⟩
          (NNGridder.gridPoint
            ⟨0.5, 1, true, ⟨-12, 12, 48⟩, ⟨-12, 12, 48⟩, ⟨-12, 12, 48⟩, [], [], [], []⟩
            48 24 24) = 1 := by
  have hx : NNGridder.getrange (K := ℚ)
      ⟨0.5, 1, true, ⟨-12, 12, 48⟩, ⟨-12, 12, 48⟩, ⟨-12, 12, 48⟩, [], [], [], []⟩
      ⟨-12, 12, 48⟩ 11.5 (2 * 1) = some (43, 48) := by
    norm_num [NNGridder.getrange, toUnsigned]
    rfl
  have hy : NNGridder.getrange (K := ℚ)
      ⟨0.5, 1, true, ⟨-12, 12, 48⟩, ⟨-12, 12, 48⟩, ⟨-12, 12, 48⟩, [], [], [], []⟩
      ⟨-12, 12, 48⟩ 0 (2 * 1) = some (20, 48) := by
    norm_num [NNGridder.getrange, toUnsigned]
    rfl
  refine ⟨?_, hx, _, (NNGridder.setAtom_iff _ _ _ _ _).2 ⟨(43, 48), (20, 48), (20, 48),
    hx, hy, hy, ?_, rfl⟩, ?_, ?_⟩
  · norm_num [setupGrid, cround, toInt]
    decide
  · rintro i j k ⟨⟨h1, h2⟩, ⟨h3, h4⟩, h5, h6⟩
    simp only [multi_array.zeros] at h2 h4 h6 ⊢
    omega
  · have hb : ¬ inBox (43, 48) (20, 48) (20, 48) 48 24 24 := by
      unfold inBox
      simp
    simp [multi_array.addf, multi_array.zeros, hb]
  · norm_num [NNGridder.calcPoint, NNGridder.gridPoint, vec.sub, vec.norm_sqr]

/-- C5, evaluated on the code: on the grid the constructor sets up for the centre
(22, 22, 22), the side 24 and the resolution 0.5 (`begin = 10`, `end = 34`, `n = 48`), for
the centre 33 and the radius 2 `getrange` returns the upper index 50, above `n = 48`
(`high = 25` is compared with `end = 34`, not with `end - begin = 24`), and `setAtom` for
an atom of radius 2 at (33, 22, 22) on a 49^3 array indexes it out of bounds.  On the grid
with `begin = -12`, an atom entirely below the grid (centre -20, radius 2) makes `getrange`
convert the negative value `ceil(-6/0.5)` to `unsigned`, which is undefined. -/
theorem getrange_beyond_count (E : Extern ℚ) :
    setupGrid (K := ℚ) ⟨22, 22, 22, 24, 0.5, true⟩
        = some ((⟨10, 34, 48⟩, ⟨10, 34, 48⟩, ⟨10, 34, 48⟩), 49)
      ∧ NNGridder.getrange (K := ℚ)
          ⟨0.5, 1, true, ⟨10, 34, 48⟩, ⟨10, 34, 48⟩, ⟨10, 34, 48⟩, [], [], [], []⟩
          ⟨10, 34, 48⟩ 33 (2 * 1) = some (42, 50)
      ∧ NNGridder.setAtom { E with xs_radius := fun _ => 2 }
          ⟨0.5, 1, true, ⟨10, 34, 48⟩, ⟨10, 34, 48⟩, ⟨10, 34, 48⟩, [], [], [], []⟩
          ⟨0, ⟨33, 22, 22⟩⟩ (multi_array.zeros 49) = none
      ∧ NNGridder.getrange (K := ℚ)
          ⟨0.5, 1, true, ⟨-12, 12, 48⟩, ⟨-12, 12, 48⟩, ⟨-12, 12, 48⟩, [], [], [], []⟩
          ⟨-12, 12, 48⟩ (-20) (2 * 1) = none := by
  have hx : NNGridder.getrange (K := ℚ)
      ⟨0.5, 1, true, ⟨10, 34, 48⟩, ⟨10, 34, 48⟩, ⟨10, 34, 48⟩, [], [], [], []⟩
      ⟨10, 34, 48⟩ 33 (2 * 1) = some (42, 50) := by
    norm_num [NNGridder.getrange, toUnsigned]
    decide
  have hy : NNGridder.getrange (K := ℚ)
      ⟨0.5, 1, true, ⟨10, 34, 48⟩, ⟨10, 34, 48⟩, ⟨10, 34, 48⟩, [], [], [], []⟩
      ⟨10, 34, 48⟩ 22 (2 * 1) = some (20, 28) := by
    norm_num [NNGridder.getrange, toUnsigned]
    decide
  refine ⟨?_, hx, ?_, ?_⟩
  · norm_num [setupGrid, cround, toInt]
    decide
  · rw [Option.eq_none_iff_forall_not_mem]
    intro grid' h
    obtain ⟨r0, r1, r2, h0, h1, h2, hin, _⟩ := (NNGridder.setAtom_iff _ _ _ _ _).1 h
    simp only [hx, hy, Option.some.injEq] at h0 h1 h2
    subst h0 h1 h2
    have := hin 49 20 20 (by unfold inBox; simp)
    simp [multi_array.zeros] at this
  · have hc : ⌈(-12 : ℚ)⌉ = -12 := by
      rw [Int.ceil_eq_iff]
      norm_num
    norm_num [NNGridder.getrange, toUnsigned, hc]

/-- C6, evaluated on the code: on the axis `begin = -12`, `end = 12`, `n = 48` with the
resolution 0.5, for the centre 0 and the radius 2, `getrange` returns the upper index
`n = 48`, because it compares `c + r - begin = 14` with `end = 12`; the bound described by
the claim is `ceil(14 / 0.5) = 28`, since 14 is below `end - begin = 24`. -/
theorem getrange_upper_compares_end :
    NNGridder.getrange (K := ℚ)
        ⟨0.5, 1, true, ⟨-12, 12, 48⟩, ⟨-12, 12, 48⟩, ⟨-12, 12, 48⟩, [], [], [], []⟩
        ⟨-12, 12, 48⟩ 0 2 = some (20, 48)
      ∧ ¬ ((0 : ℚ) + 2 - (-12) ≥ 12 - (-12))
      ∧ ⌈((0 : ℚ) + 2 - (-12)) / 0.5⌉ = 28 := by
  refine ⟨?_, by norm_num, ?_⟩
  · norm_num [NNGridder.getrange, toUnsigned]
    decide
  · norm_num

end Gnina
